import Mathlib

/-!
Verification development for the KTX2 container decoder of this repository.

The decoder lives in `KTX2/docs/read.js` (two revisions are concatenated in
that file; the first revision carries the supercompression resolver and the
decode-aware `getLevelData`, the second revision carries
`applyDFDCorrections` and the extended `vkFormatToWebGPU` table) and in
`KTX2/media/main.js` (`padRows`, `float32ToFloat16`,
`convertRGBA32FtoRGBA16F`).

Buffers are shallow-embedded as `List Nat` of byte values; JavaScript
`DataView` reads are little-endian and throw a `RangeError` when out of
bounds, which we model with `Option`-valued readers.  External effects
(the fzstd decompressor and the Basis transcoder backend) are passed in as
an explicit `Env` record of pure functions; backend methods that can throw
are `Except Unit`-valued.
-/

namespace KTX2

set_option maxRecDepth 100000

/-! ## Byte reader -/

/-- The bytes of `buf` starting at `off`, at most `len` of them
(the in-bounds slice `buf[off : off+len]`). -/
def readBytes (buf : List Nat) (off len : Nat) : List Nat :=
  (buf.drop off).take len

/-- Little-endian value of a byte list (first byte is least significant). -/
def leNat : List Nat → Nat
  | [] => 0
  | b :: bs => b + 256 * leNat bs

/-- `DataView.getUint32(off, true)`: little-endian 32-bit read, `none` when
the read would run past the end of the buffer (JS throws `RangeError`). -/
def getUint32? (buf : List Nat) (off : Nat) : Option Nat :=
  if off + 4 ≤ buf.length then some (leNat (readBytes buf off 4)) else none

/-- `DataView.getBigUint64(off, true)` followed by `Number(...)`:
little-endian 64-bit read, `none` when out of bounds. -/
def getUint64? (buf : List Nat) (off : Nat) : Option Nat :=
  if off + 8 ≤ buf.length then some (leNat (readBytes buf off 8)) else none

/-- Total little-endian 32-bit read, used only at offsets whose bounds have
already been established (the 80-byte header region). -/
def getUint32 (buf : List Nat) (off : Nat) : Nat :=
  leNat (readBytes buf off 4)

/-- Total little-endian 64-bit read for the checked header region. -/
def getUint64 (buf : List Nat) (off : Nat) : Nat :=
  leNat (readBytes buf off 8)

/-! ## JavaScript 32-bit arithmetic

`header.pixelWidth >> i` in `read.js` is JavaScript's signed 32-bit shift:
the left operand is reduced to a 32-bit two's-complement integer, the shift
count is taken mod 32, and the shift is arithmetic. -/

/-- `ToInt32`: reduce a (nonnegative) numeric value to JavaScript's
signed-32-bit range. -/
def toInt32 (n : Nat) : Int :=
  if n % 4294967296 < 2147483648 then ((n % 4294967296 : Nat) : Int)
  else ((n % 4294967296 : Nat) : Int) - 4294967296

/-- JavaScript `x >> i` for a nonnegative `x`: arithmetic shift of
`ToInt32 x` by `i mod 32` (arithmetic shift right is floor division). -/
def jsShr (x i : Nat) : Int :=
  Int.fdiv (toInt32 x) (2 ^ (i % 32))

/-- `Math.max(1, base >> i)` as stored in each level descriptor. -/
def levelDim (base i : Nat) : Nat :=
  (max 1 (jsShr base i)).toNat

/-! ## Data model -/

/-- The 68-byte container header (9 little-endian `uint32` fields). -/
structure Header where
  vkFormat : Nat
  typeSize : Nat
  pixelWidth : Nat
  pixelHeight : Nat
  pixelDepth : Nat
  layerCount : Nat
  faceCount : Nat
  levelCount : Nat
  supercompressionScheme : Nat
deriving DecidableEq, Repr

/-- Block index: DFD/KVD offset+length (`uint32`), SGD offset+length
(`uint64`). -/
structure BlockIndex where
  dfdByteOffset : Nat
  dfdByteLength : Nat
  kvdByteOffset : Nat
  kvdByteLength : Nat
  sgdByteOffset : Nat
  sgdByteLength : Nat
deriving DecidableEq, Repr

/-- One level descriptor.  `isDecompressed`, `decompressedData` and
`transcodedFormat` start out absent (JS `undefined`, modelled as
`false`/`none`) and are written by the supercompression resolver. -/
structure Level where
  byteOffset : Nat
  byteLength : Nat
  uncompressedByteLength : Nat
  width : Nat
  height : Nat
  isDecompressed : Bool := false
  decompressedData : Option (List Nat) := none
  transcodedFormat : Option Nat := none
deriving DecidableEq, Repr

/-- Parsed Data Format Descriptor block (`parseDFD`). -/
structure DFD where
  totalSize : Nat
  vendorId : Nat
  descriptorType : Nat
  versionNumber : Nat
  descriptorBlockSize : Nat
  colorModel : Nat
  colorPrimaries : Nat
  transferFunction : Nat
  flags : Nat
  texelBlockDimension : List Nat
  bytesPlane : List Nat
deriving DecidableEq, Repr

/-- The aggregate returned by `parseKTX2`.  The KVD is kept as the ordered
entry list (the JS object assigns `kv[key] = value`, later duplicates
overwriting; no claim depends on duplicate keys). -/
structure ParsedTexture where
  header : Header
  index : BlockIndex
  levels : List Level
  dfd : Option DFD
  kvd : Option (List (List Nat × List Nat))
deriving DecidableEq, Repr

/-- Error taxonomy of the thrown `Error`s of `parseKTX2`, plus `rangeError`
for JavaScript `RangeError`s raised by typed-array/DataView construction or
out-of-bounds reads, and `backendError` / `libLoadFailed` for exceptions
escaping from the transcoder backend / the dynamic library loaders. -/
inductive ParseError where
  | rangeError
  | invalidIdentifier
  | truncated
  | decompressFailed (level : Nat)
  | transcodeInitFailed
  | noImages
  | unsupportedZlib
  | unknownScheme (scheme : Nat)
  | backendError
  | libLoadFailed
deriving DecidableEq, Repr

/-- Non-fatal diagnostics (`console.warn`) emitted during resolution. -/
inductive Warning where
  | sizeMismatch (level actual expected : Nat)
deriving DecidableEq, Repr

/-! ## Container parsing (`parseKTX2`, structural part) -/

/-- The fixed 12-byte KTX2 magic identifier. -/
def KTX2_IDENTIFIER : List Nat :=
  [0xAB, 0x4B, 0x54, 0x58, 0x20, 0x32, 0x30, 0xBB, 0x0D, 0x0A, 0x1A, 0x0A]

/-- The byte-by-byte identifier comparison loop of `parseKTX2`. -/
def checkIdentifier (buf : List Nat) : Bool :=
  decide (readBytes buf 0 12 = KTX2_IDENTIFIER)

/-- Header fields, read at their fixed offsets 12..47. -/
def parseHeader (buf : List Nat) : Header :=
  { vkFormat := getUint32 buf 12
    typeSize := getUint32 buf 16
    pixelWidth := getUint32 buf 20
    pixelHeight := getUint32 buf 24
    pixelDepth := getUint32 buf 28
    layerCount := getUint32 buf 32
    faceCount := getUint32 buf 36
    levelCount := getUint32 buf 40
    supercompressionScheme := getUint32 buf 44 }

/-- Block index fields, read at their fixed offsets 48..79. -/
def parseIndex (buf : List Nat) : BlockIndex :=
  { dfdByteOffset := getUint32 buf 48
    dfdByteLength := getUint32 buf 52
    kvdByteOffset := getUint32 buf 56
    kvdByteLength := getUint32 buf 60
    sgdByteOffset := getUint64 buf 64
    sgdByteLength := getUint64 buf 72 }

/-- The level-index loop: `count` entries of three `uint64` fields each,
starting at byte 80, entry `i` at `80 + 24*i`.  `none` when a
`getBigUint64` read runs out of bounds. -/
def parseLevels (buf : List Nat) (pw ph : Nat) : Nat → Nat → Option (List Level)
  | _, 0 => some []
  | i, count + 1 =>
    match getUint64? buf (80 + 24 * i), getUint64? buf (80 + 24 * i + 8),
          getUint64? buf (80 + 24 * i + 16) with
    | some bo, some bl, some ul =>
      match parseLevels buf pw ph (i + 1) count with
      | some rest =>
        some ({ byteOffset := bo, byteLength := bl, uncompressedByteLength := ul,
                width := levelDim pw i, height := levelDim ph i } :: rest)
      | none => none
    | _, _, _ => none

/-- `parseDFD`: an inner `DataView(buffer, base, len)` (throws unless
`base + len ≤ buf.length`) and 20 sequential reads whose furthest byte is
relative offset 27, so they all succeed exactly when `28 ≤ len`. -/
def parseDFD? (buf : List Nat) (base len : Nat) : Option DFD :=
  if base + len ≤ buf.length ∧ 28 ≤ len then
    some { totalSize := getUint32 buf base
           vendorId := leNat (readBytes buf (base + 4) 2)
           descriptorType := leNat (readBytes buf (base + 6) 2)
           versionNumber := leNat (readBytes buf (base + 8) 2)
           descriptorBlockSize := leNat (readBytes buf (base + 10) 2)
           colorModel := leNat (readBytes buf (base + 12) 1)
           colorPrimaries := leNat (readBytes buf (base + 13) 1)
           transferFunction := leNat (readBytes buf (base + 14) 1)
           flags := leNat (readBytes buf (base + 15) 1)
           texelBlockDimension := readBytes buf (base + 16) 4
           bytesPlane := readBytes buf (base + 20) 8 }
  else none

/-- Split a byte list at its first NUL byte (the `indexOf('\0')` /
`slice` pair of `parseKVD`); `none` when no NUL occurs, in which case the
entry is skipped. -/
def splitAtNul : List Nat → Option (List Nat × List Nat)
  | [] => none
  | b :: rest =>
    if b = 0 then some ([], rest)
    else
      match splitAtNul rest with
      | some (k, v) => some (b :: k, v)
      | none => none

/-- The `parseKVD` loop.  `fuel` bounds the iteration count (each pass
consumes at least 5 bytes of the block, so `len + 1` passes always
suffice); on the unreachable fuel exhaustion we conservatively report a
failure.  `none` models an out-of-bounds `getUint32` or `Uint8Array`
construction. -/
def parseKVDGo (buf : List Nat) (endOff : Nat) : Nat → Nat → Option (List (List Nat × List Nat))
  | 0, _ => none
  | fuel + 1, offset =>
    if offset < endOff then
      match getUint32? buf offset with
      | none => none
      | some kvLen =>
        if kvLen = 0 then some []
        else if offset + 4 + kvLen ≤ buf.length then
          let bytes := readBytes buf (offset + 4) kvLen
          let entry : List (List Nat × List Nat) :=
            match splitAtNul bytes with
            | some kv => [kv]
            | none => []
          match parseKVDGo buf endOff fuel (offset + 4 + kvLen + (4 - kvLen % 4) % 4) with
          | none => none
          | some rest => some (entry ++ rest)
        else none
    else some []

/-- `parseKVD(dv, baseOffset, length)`. -/
def parseKVD? (buf : List Nat) (base len : Nat) : Option (List (List Nat × List Nat)) :=
  parseKVDGo buf (base + len) (len + 1) base

/-- The structural part of `parseKTX2`: identifier check, 80-byte size
check, header, block index, level index, DFD and KVD — everything before
the supercompression dispatch. -/
def parseStructure (buf : List Nat) : Except ParseError ParsedTexture :=
  if buf.length < 12 then .error .rangeError
  else if ¬ checkIdentifier buf then .error .invalidIdentifier
  else if buf.length < 80 then .error .truncated
  else
    -- level count used for iteration: `Math.max(1, header.levelCount || 1)`
    match parseLevels buf (parseHeader buf).pixelWidth (parseHeader buf).pixelHeight 0
        (max 1 (parseHeader buf).levelCount) with
    | none => .error .rangeError
    | some levels =>
      match (if 0 < (parseIndex buf).dfdByteLength then
               match parseDFD? buf (parseIndex buf).dfdByteOffset (parseIndex buf).dfdByteLength with
               | none => none
               | some d => some (some d)
             else some none : Option (Option DFD)) with
      | none => .error .rangeError
      | some dfd =>
        match (if 0 < (parseIndex buf).kvdByteLength then
                 match parseKVD? buf (parseIndex buf).kvdByteOffset (parseIndex buf).kvdByteLength with
                 | none => none
                 | some kv => some (some kv)
               else some none : Option (Option (List (List Nat × List Nat)))) with
        | none => .error .rangeError
        | some kvd =>
          .ok { header := parseHeader buf, index := parseIndex buf, levels := levels,
                dfd := dfd, kvd := kvd }

/-! ## Supercompression resolver

External collaborators.  The Basis transcoder backend is the object
constructed from `BasisModule.KTX2File` (when that export exists and its
constructor does not throw) or from `BasisModule.BasisFile`; the two
classes expose distinct method shapes, so each is modelled by its own
fields.  A method that may throw a JavaScript exception is
`Except Unit`-valued. -/

/-- The Basis transcoder backend opened over the whole file buffer. -/
structure BasisBackend where
  /-- `BasisModule.KTX2File` exists in the loaded module. -/
  hasKTX2File : Bool
  /-- the `new KTX2File(bytes)` constructor returns normally. -/
  ktx2CtorOk : Bool
  /-- `basisFile.startTranscoding()` -/
  startTranscoding : Bool
  /-- `KTX2File.getLevels()` -/
  getLevels : Except Unit Nat
  /-- `BasisFile.getNumLevels(0)` -/
  getNumLevels : Except Unit Nat
  /-- `BasisFile.getNumImages()` -/
  numImages : Nat
  /-- `KTX2File.getImageTranscodedSizeInBytes(level, 0, 0, fmt)` -/
  sizeKTX2 : Nat → Except Unit Nat
  /-- `BasisFile.getImageTranscodedSizeInBytes(0, level, fmt)` -/
  sizeBasis : Nat → Except Unit Nat
  /-- `KTX2File.transcodeImage(dst, level, 0, 0, fmt, 0, 0)`: the returned
  status together with the contents of `dst` after the call (the `dst`
  typed array keeps the length it was allocated with). -/
  transcodeKTX2 : Nat → Except Unit (Bool × List Nat)
  /-- `BasisFile.transcodeImage(dst, 0, level, fmt, 0, 0)` -/
  transcodeBasis : Nat → Except Unit (Bool × List Nat)

/-- External capabilities consumed by `parseKTX2`: whether the two dynamic
library loads succeed, the fzstd decompressor (`none` = it throws), and the
Basis backend. -/
structure Env where
  fzstdLoads : Bool
  basisLoads : Bool
  fzstd : List Nat → Option (List Nat)
  basis : BasisBackend

/-- The full outcome of a `parseKTX2` call: its return value or thrown
error, the non-fatal warnings of a successful resolution, and whether a
Basis file handle was opened / released (`close()` + `delete()`). -/
structure ParseOutcome where
  result : Except ParseError ParsedTexture
  warnings : List Warning
  basisOpened : Bool
  basisClosed : Bool
deriving Repr

/-- The Zstandard per-level loop: slice the level's byte range (the
`Uint8Array` view construction throws when out of bounds), decompress it
(fatal on failure), store the data and the `isDecompressed` flag, and warn
when the output length differs from the declared uncompressed length. -/
def zstdLevels (env : Env) (buf : List Nat) : Nat → List Level → Except ParseError (List Level × List Warning)
  | _, [] => .ok ([], [])
  | i, l :: rest =>
    if l.byteOffset + l.byteLength ≤ buf.length then
      match env.fzstd (readBytes buf l.byteOffset l.byteLength) with
      | none => .error (.decompressFailed i)
      | some d =>
        let l' := { l with decompressedData := some d, isDecompressed := true }
        let ws : List Warning :=
          if d.length = l.uncompressedByteLength then []
          else [.sizeMismatch i d.length l.uncompressedByteLength]
        match zstdLevels env buf (i + 1) rest with
        | .error e => .error e
        | .ok (ls, ws') => .ok (l' :: ls, ws ++ ws')
    else .error .rangeError

/-- The per-level loop of the raw-Basis branch (scheme None with
`vkFormat === 0`), levels in ascending index order while `i < safe`.
There is no try/catch here: a thrown backend exception propagates
(`Except.error`).  A zero transcoded size, a false status or an empty
destination break the loop, leaving the current and all later levels
untouched. -/
def rawBasisLoop (b : BasisBackend) (isK : Bool) (safe : Nat) : Nat → List Level → Except Unit (List Level)
  | _, [] => .ok []
  | i, l :: rest =>
    if i < safe then
      match (if isK then b.sizeKTX2 i else b.sizeBasis i) with
      | .error e => .error e
      | .ok sz =>
        if sz = 0 then .ok (l :: rest)
        else
          match (if isK then b.transcodeKTX2 i else b.transcodeBasis i) with
          | .error e => .error e
          | .ok (status, dst) =>
            if status ∧ 0 < dst.length then
              match rawBasisLoop b isK safe (i + 1) rest with
              | .error e => .error e
              | .ok rest' =>
                .ok ({ l with isDecompressed := true, decompressedData := some dst,
                              transcodedFormat := some 13 } :: rest')
            else .ok (l :: rest)
    else .ok (l :: rest)

/-- The raw-Basis decode branch.  Returns the branch result plus
(opened, closed) flags for the backend file handle. -/
def decodeRawBasis (b : BasisBackend) (levels : List Level) : Except ParseError (List Level) × Bool × Bool :=
  -- `new KTX2File(fileUint8)` is not wrapped in try/catch in this branch
  if b.hasKTX2File ∧ ¬ b.ktx2CtorOk then (.error .backendError, false, false)
  else if b.startTranscoding then
    -- `getLevels()` / `getNumLevels(0)` — also unguarded here
    match (if b.hasKTX2File then b.getLevels else b.getNumLevels) with
    | .error _ => (.error .backendError, true, false)
    | .ok lc =>
      match rawBasisLoop b b.hasKTX2File (min levels.length lc) 0 levels with
      | .error _ => (.error .backendError, true, false)
      | .ok ls => (.ok ls, true, true)
  else (.error .transcodeInitFailed, true, true)

/-- The per-level loop of the BasisLZ branch.  Identical decisions to
`rawBasisLoop`, but the backend calls sit inside a try/catch whose handler
breaks the loop, so a thrown exception truncates instead of propagating. -/
def basisLZLoop (b : BasisBackend) (isK : Bool) (safe : Nat) : Nat → List Level → List Level
  | _, [] => []
  | i, l :: rest =>
    if i < safe then
      match (if isK then b.sizeKTX2 i else b.sizeBasis i) with
      | .error _ => l :: rest
      | .ok sz =>
        if sz = 0 then l :: rest
        else
          match (if isK then b.transcodeKTX2 i else b.transcodeBasis i) with
          | .error _ => l :: rest
          | .ok (status, dst) =>
            if status ∧ 0 < dst.length then
              { l with isDecompressed := true, decompressedData := some dst,
                       transcodedFormat := some 13 } :: basisLZLoop b isK safe (i + 1) rest
            else l :: rest
    else l :: rest

/-- The transcoder level count of the BasisLZ branch: `getLevels()` /
`getNumLevels(0)` wrapped in try/catch defaulting to 1. -/
def lzLevelCount (b : BasisBackend) (isK : Bool) : Nat :=
  match (if isK then b.getLevels else b.getNumLevels) with
  | .ok n => n
  | .error _ => 1

/-- The BasisLZ decode branch (`supercompressionScheme === 1`). -/
def decodeBasisLZ (b : BasisBackend) (levels : List Level) : Except ParseError (List Level) × Bool × Bool :=
  -- `isKTX2File` below is: `new KTX2File` was attempted (inside try/catch)
  -- and succeeded; otherwise the `BasisFile` fallback is in use
  if b.startTranscoding then
    if (if b.hasKTX2File && b.ktx2CtorOk then 1 else b.numImages) = 0 then
      (.error .noImages, true, true)
    else
      (.ok (basisLZLoop b (b.hasKTX2File && b.ktx2CtorOk)
        (min levels.length (lzLevelCount b (b.hasKTX2File && b.ktx2CtorOk))) 0 levels),
       true, true)
  else (.error .transcodeInitFailed, true, true)

/-- The supercompression scheme constants. -/
def SUPERCOMPRESSION_NONE : Nat := 0
def SUPERCOMPRESSION_BASIS_LZ : Nat := 1
def SUPERCOMPRESSION_ZSTD : Nat := 2
def SUPERCOMPRESSION_ZLIB : Nat := 3

/-- `parseKTX2(arrayBuffer, device)`: structural parse followed by the
supercompression dispatch, in the source's branch order. -/
def parseKTX2 (env : Env) (buf : List Nat) : ParseOutcome :=
  match parseStructure buf with
  | .error e => ⟨.error e, [], false, false⟩
  | .ok t =>
    if t.header.supercompressionScheme = SUPERCOMPRESSION_ZSTD then
      if env.fzstdLoads then
        match zstdLevels env buf 0 t.levels with
        | .error e => ⟨.error e, [], false, false⟩
        | .ok (ls, ws) => ⟨.ok { t with levels := ls }, ws, false, false⟩
      else ⟨.error .libLoadFailed, [], false, false⟩
    else if t.header.vkFormat = 0 ∧ t.header.supercompressionScheme = SUPERCOMPRESSION_NONE then
      if env.basisLoads then
        match decodeRawBasis env.basis t.levels with
        | (.error e, o, c) => ⟨.error e, [], o, c⟩
        | (.ok ls, o, c) => ⟨.ok { t with levels := ls }, [], o, c⟩
      else ⟨.error .libLoadFailed, [], false, false⟩
    else if t.header.supercompressionScheme = SUPERCOMPRESSION_BASIS_LZ then
      if env.basisLoads then
        match decodeBasisLZ env.basis t.levels with
        | (.error e, o, c) => ⟨.error e, [], o, c⟩
        | (.ok ls, o, c) => ⟨.ok { t with levels := ls }, [], o, c⟩
      else ⟨.error .libLoadFailed, [], false, false⟩
    else if t.header.supercompressionScheme = SUPERCOMPRESSION_ZLIB then
      ⟨.error .unsupportedZlib, [], false, false⟩
    else if t.header.supercompressionScheme = SUPERCOMPRESSION_NONE then
      -- the remaining case of the source's `scheme !== NONE → throw unknown`
      ⟨.ok t, [], false, false⟩
    else ⟨.error (.unknownScheme t.header.supercompressionScheme), [], false, false⟩

/-! ## Per-level accessor -/

/-- `getLevelData(arrayBuffer, level)` (first revision of `read.js`):
the decoded payload when the flag is set and a payload is attached,
otherwise the raw `Uint8Array(buf, byteOffset, byteLength)` slice (whose
construction throws when out of bounds, hence `Option`). -/
def getLevelData (buf : List Nat) (l : Level) : Option (List Nat) :=
  match l.isDecompressed, l.decompressedData with
  | true, some d => some d
  | _, _ =>
    if l.byteOffset + l.byteLength ≤ buf.length then
      some (readBytes buf l.byteOffset l.byteLength)
    else none

/-! ## Format resolution table and DFD correction -/

/-- A `vkFormatToWebGPU` table entry.  Absent JS fields are `none`. -/
structure FormatInfo where
  format : String
  blockWidth : Option Nat := none
  blockHeight : Option Nat := none
  bytesPerBlock : Option Nat := none
  bytesPerPixel : Option Nat := none
  sourceChannels : Option Nat := none
  sourceBytesPerPixel : Option Nat := none
deriving DecidableEq, Repr

/-- A block-format table entry (`blockWidth/blockHeight/bytesPerBlock`). -/
def blockEntry (fmt : String) (bw bh bpb : Nat) : FormatInfo :=
  { format := fmt, blockWidth := some bw, blockHeight := some bh, bytesPerBlock := some bpb }

/-- `vkFormatToWebGPU(vkFormat)` — the second-revision table of `read.js`,
the one paired with `applyDFDCorrections`. -/
def vkFormatToWebGPU (vkFormat : Nat) : Option FormatInfo :=
  match vkFormat with
  | 131 => some (blockEntry "bc1-rgba-unorm" 4 4 8)
  | 132 => some (blockEntry "bc1-rgba-unorm-srgb" 4 4 8)
  | 135 => some (blockEntry "bc2-rgba-unorm" 4 4 16)
  | 136 => some (blockEntry "bc2-rgba-unorm-srgb" 4 4 16)
  | 137 => some (blockEntry "bc3-rgba-unorm" 4 4 16)
  | 138 => some (blockEntry "bc3-rgba-unorm-srgb" 4 4 16)
  | 139 => some (blockEntry "bc4-r-unorm" 4 4 8)
  | 140 => some (blockEntry "bc4-r-snorm" 4 4 8)
  | 141 => some (blockEntry "bc5-rg-unorm" 4 4 16)
  | 142 => some (blockEntry "bc5-rg-snorm" 4 4 16)
  | 143 => some (blockEntry "bc6h-rgb-ufloat" 4 4 16)
  | 144 => some (blockEntry "bc6h-rgb-float" 4 4 16)
  | 145 => some (blockEntry "bc7-rgba-unorm" 4 4 16)
  | 146 => some (blockEntry "bc7-rgba-unorm-srgb" 4 4 16)
  | 148 => some (blockEntry "etc2-rgb8unorm" 4 4 8)
  | 149 => some (blockEntry "etc2-rgb8unorm-srgb" 4 4 8)
  | 152 => some (blockEntry "etc2-rgb8unorm" 4 4 8)
  | 153 => some (blockEntry "etc2-rgb8a1unorm" 4 4 8)
  | 154 => some (blockEntry "etc2-rgba8unorm" 4 4 16)
  | 157 => some (blockEntry "astc-4x4-unorm" 4 4 16)
  | 159 => some (blockEntry "astc-5x4-unorm" 5 4 16)
  | 161 => some (blockEntry "astc-5x5-unorm" 5 5 16)
  | 163 => some (blockEntry "astc-6x5-unorm" 6 5 16)
  | 165 => some (blockEntry "astc-6x6-unorm" 6 6 16)
  | 158 => some (blockEntry "astc-4x4-unorm-srgb" 4 4 16)
  | 160 => some (blockEntry "astc-4x4-unorm-srgb" 4 4 16)
  | 162 => some (blockEntry "astc-5x5-unorm-srgb" 5 5 16)
  | 164 => some (blockEntry "astc-6x5-unorm-srgb" 6 5 16)
  | 166 => some (blockEntry "astc-6x6-unorm-srgb" 6 6 16)
  | 23 => some { format := "rgba8unorm", bytesPerPixel := some 4, sourceChannels := some 3 }
  | 24 => some { format := "rgba8unorm-srgb", bytesPerPixel := some 4, sourceChannels := some 3 }
  | 29 => some { format := "rgba8unorm", bytesPerPixel := some 4, sourceChannels := some 3 }
  | 37 => some { format := "rgba8unorm", bytesPerPixel := some 4 }
  | 43 => some { format := "rgba8unorm-srgb", bytesPerPixel := some 4 }
  | 97 => some { format := "rgba16float", bytesPerPixel := some 8 }
  | 109 => some { format := "rgba16float", bytesPerPixel := some 8, sourceBytesPerPixel := some 16 }
  | 100 => some { format := "rg11b10ufloat", bytesPerPixel := some 4 }
  | 122 => some { format := "rg11b10ufloat", bytesPerPixel := some 4 }
  | 99 => some { format := "rgb9e5ufloat", bytesPerPixel := some 4 }
  | 123 => some { format := "rgb9e5ufloat", bytesPerPixel := some 4 }
  | _ => none

/-- JS truthiness of an optional numeric field: defined and nonzero. -/
def optTruthy : Option Nat → Bool
  | some n => decide (n ≠ 0)
  | none => false

/-- `applyDFDCorrections(formatInfo, dfd, vkFormat)`.  `dfd.bytesPlane` is
always an array (truthy); `dfd.bytesPlane[0]` is truthy when nonzero.  The
JS function mutates `formatInfo` in place and returns it; we return the
updated record. -/
def applyDFDCorrections (formatInfo : Option FormatInfo) (dfd : Option DFD) (vkFormat : Nat) : Option FormatInfo :=
  match formatInfo, dfd with
  | none, _ => none
  | some fi, none => some fi
  | some fi, some d =>
    if optTruthy fi.blockWidth && decide (d.bytesPlane.headD 0 ≠ 0) then
      let dfdBytesPerBlock := d.bytesPlane.headD 0
      if some dfdBytesPerBlock ≠ fi.bytesPerBlock then
        let fi1 := { fi with bytesPerBlock := some dfdBytesPerBlock }
        if 148 ≤ vkFormat ∧ vkFormat ≤ 154 then
          if dfdBytesPerBlock = 8 then
            if d.colorModel = 160 then some { fi1 with format := "etc2-rgb8unorm" }
            else if d.colorModel = 162 then some { fi1 with format := "etc2-rgb8a1unorm" }
            else some { fi1 with format := "etc2-rgb8unorm" }
          else if dfdBytesPerBlock = 16 then some { fi1 with format := "etc2-rgba8unorm" }
          else some fi1
        else some fi1
      else some fi
    else some fi

/-! ## Upload preparer (`main.js`) -/

/-- The destination buffer built by `padRows` in its copying branch:
`new Uint8Array(aligned * height)` is zero-filled and `dst.set` places each
(clamped, as `subarray` clamps) source row at `y * aligned`; rows are
disjoint, so the buffer is the concatenation of `height` blocks of
`aligned` bytes each. -/
def padRowsDst (src : List Nat) (rowStride aligned : Nat) : Nat → Nat → List Nat
  | _, 0 => []
  | y, rows + 1 =>
    let chunk := (src.drop (y * rowStride)).take rowStride
    (chunk ++ List.replicate (aligned - chunk.length) 0)
      ++ padRowsDst src rowStride aligned (y + 1) rows

/-- `padRows(src, width, height, bytesPerPixel)` (JS default
`bytesPerPixel = 4`): returns `(data, bytesPerRow)`.
`Math.ceil(rowStride / 256) * 256 = ((rowStride + 255) / 256) * 256`. -/
def padRows (src : List Nat) (width height bytesPerPixel : Nat) : List Nat × Nat :=
  -- rowStride = width * bytesPerPixel; aligned = Math.ceil(rowStride/256)*256
  if ((width * bytesPerPixel + 255) / 256) * 256 = width * bytesPerPixel then
    (src, width * bytesPerPixel)
  else
    (padRowsDst src (width * bytesPerPixel) (((width * bytesPerPixel + 255) / 256) * 256) 0 height,
     ((width * bytesPerPixel + 255) / 256) * 256)

/-- `float32ToFloat16(val)` on the 32-bit pattern `x` of the (already
float32-valued) input; at its call site the values come out of a
`Float32Array`, so the store into `floatView` is the identity on bits.
JS bit operations on these ranges coincide with the arithmetic below:
`x >> 31 & 1 = x / 2^31 % 2`, `(x >> 23) & 0xFF = x / 2^23 % 256`,
`(x >> 13) & 0x3FF = x / 2^13 % 1024`, `mant | 0x400 = mant + 1024`
(as `mant < 1024`), and the final `|`-composition adds disjoint bit
ranges (`mant` stays below `2^10`, the exponent field below `2^5`). -/
def float32ToFloat16 (x : Nat) : Nat :=
  let sign := x / 2 ^ 31 % 2
  let e : Int := ((x / 2 ^ 23 % 256 : Nat) : Int) - 112
  let mant := x / 2 ^ 13 % 1024
  if e ≤ 0 then
    if e < -10 then sign * 2 ^ 15
    else sign * 2 ^ 15 + (mant + 1024) / 2 ^ (1 - e).toNat
  else if 31 ≤ e then sign * 2 ^ 15 + 31 * 2 ^ 10
  else sign * 2 ^ 15 + e.toNat * 2 ^ 10 + mant

/-- `convertRGBA32FtoRGBA16F(src, width, height)` viewed at 32-bit-lane
granularity: the JS function reinterprets the byte buffer as
`width * height * 4` float32 lanes and converts each channel with
`float32ToFloat16`. -/
def convertRGBA32FtoRGBA16F (words : List Nat) : List Nat :=
  words.map float32ToFloat16

/-! ## IEEE-754 reference semantics (for the float claims)

The rational value denoted by a finite binary16 / binary32 bit pattern. -/

/-- Value of a finite half-precision bit pattern (sign 1 bit, exponent
5 bits biased by 15, mantissa 10 bits; exponent 0 is subnormal). -/
def halfValQ (h : Nat) : ℚ :=
  let s : Nat := h / 2 ^ 15 % 2
  let e : Nat := h / 2 ^ 10 % 32
  let m : Nat := h % 2 ^ 10
  (if s = 1 then (-1 : ℚ) else 1) *
    (if e = 0 then (m : ℚ) / 2 ^ 10 * (2 : ℚ) ^ (-14 : ℤ)
     else (1 + (m : ℚ) / 2 ^ 10) * (2 : ℚ) ^ ((e : ℤ) - 15))

/-- Value of a finite single-precision bit pattern (sign 1 bit, exponent
8 bits biased by 127, mantissa 23 bits; exponent 0 is subnormal). -/
def float32ValQ (x : Nat) : ℚ :=
  let s : Nat := x / 2 ^ 31 % 2
  let e : Nat := x / 2 ^ 23 % 256
  let m : Nat := x % 2 ^ 23
  (if s = 1 then (-1 : ℚ) else 1) *
    (if e = 0 then (m : ℚ) / 2 ^ 23 * (2 : ℚ) ^ (-126 : ℤ)
     else (1 + (m : ℚ) / 2 ^ 23) * (2 : ℚ) ^ ((e : ℤ) - 127))

/-! ## Derived notions used by the statements -/

/-- The per-level decision both Basis loops make: the transcoded payload
stored for level `i` when the level succeeds, `none` when the level fails
to produce a non-empty payload (zero size, false status, empty destination)
or a backend call throws. -/
def basisAttempt (b : BasisBackend) (isK : Bool) (i : Nat) : Option (List Nat) :=
  match (if isK then b.sizeKTX2 i else b.sizeBasis i) with
  | .error _ => none
  | .ok sz =>
    if sz = 0 then none
    else
      match (if isK then b.transcodeKTX2 i else b.transcodeBasis i) with
      | .error _ => none
      | .ok (status, dst) => if status ∧ 0 < dst.length then some dst else none

/-- The decode outcome written into a level when its transcode succeeds. -/
def decorate (l : Level) (d : List Nat) : Level :=
  { l with isDecompressed := true, decompressedData := some d, transcodedFormat := some 13 }

/-- Whether an `Except`-valued backend call returned normally. -/
def exOk : Except Unit α → Bool
  | .ok _ => true
  | .error _ => false

/-- Both backend calls of level `i` return normally (do not throw). -/
def backendNoThrow (b : BasisBackend) (isK : Bool) (i : Nat) : Bool :=
  exOk (if isK then b.sizeKTX2 i else b.sizeBasis i) &&
  exOk (if isK then b.transcodeKTX2 i else b.transcodeBasis i)

/-! ## Concrete inputs for witnesses and counterexamples -/

/-- Little-endian 32-bit encoding of `n`. -/
def u32le (n : Nat) : List Nat :=
  [n % 256, n / 256 % 256, n / 65536 % 256, n / 16777216 % 256]

/-- Little-endian 64-bit encoding of `n` (for `n < 2^32`, high half 0). -/
def u64le (n : Nat) : List Nat :=
  u32le n ++ [0, 0, 0, 0]

/-- A backend with no capabilities, for paths that never reach it. -/
def inertBackend : BasisBackend :=
  { hasKTX2File := false, ktx2CtorOk := false, startTranscoding := false,
    getLevels := .error (), getNumLevels := .error (), numImages := 0,
    sizeKTX2 := fun _ => .error (), sizeBasis := fun _ => .error (),
    transcodeKTX2 := fun _ => .error (), transcodeBasis := fun _ => .error () }

/-- An environment with no external capabilities. -/
def inertEnv : Env :=
  { fzstdLoads := false, basisLoads := false, fzstd := fun _ => none,
    basis := inertBackend }

/-- A minimal valid container: RGBA8 (`vkFormat 37`), 4×4, one level,
scheme None, no DFD/KVD; level bytes `[1,2,3,4]` at offset 104. -/
def bufPlain : List Nat :=
  KTX2_IDENTIFIER ++
  u32le 37 ++ u32le 1 ++ u32le 4 ++ u32le 4 ++ u32le 1 ++
  u32le 0 ++ u32le 1 ++ u32le 1 ++ u32le 0 ++
  u32le 0 ++ u32le 0 ++ u32le 0 ++ u32le 0 ++ u64le 0 ++ u64le 0 ++
  u64le 104 ++ u64le 4 ++ u64le 4 ++
  [1, 2, 3, 4]

/-- The fallback texture used by the concrete-extraction helpers below
(never reached on the buffers they are applied to). -/
def emptyTexture : ParsedTexture :=
  { header := parseHeader [], index := parseIndex [], levels := [], dfd := none, kvd := none }

/-- The texture parsed from `bufPlain` (scheme None, `vkFormat 37`). -/
def texPlain : ParsedTexture :=
  match (parseKTX2 inertEnv bufPlain).result with
  | .ok t => t
  | .error _ => emptyTexture

/-- A raw-Basis container: `vkFormat 0`, scheme None, 4 levels, 8×8. -/
def bufRaw4 : List Nat :=
  KTX2_IDENTIFIER ++
  u32le 0 ++ u32le 1 ++ u32le 8 ++ u32le 8 ++ u32le 1 ++
  u32le 0 ++ u32le 1 ++ u32le 4 ++ u32le 0 ++
  u32le 0 ++ u32le 0 ++ u32le 0 ++ u32le 0 ++ u64le 0 ++ u64le 0 ++
  u64le 0 ++ u64le 0 ++ u64le 0 ++
  u64le 0 ++ u64le 0 ++ u64le 0 ++
  u64le 0 ++ u64le 0 ++ u64le 0 ++
  u64le 0 ++ u64le 0 ++ u64le 0

/-- A BasisLZ container: `vkFormat 0`, scheme BasisLZ, 4 levels, 8×8. -/
def bufLZ4 : List Nat :=
  KTX2_IDENTIFIER ++
  u32le 0 ++ u32le 1 ++ u32le 8 ++ u32le 8 ++ u32le 1 ++
  u32le 0 ++ u32le 1 ++ u32le 4 ++ u32le 1 ++
  u32le 0 ++ u32le 0 ++ u32le 0 ++ u32le 0 ++ u64le 0 ++ u64le 0 ++
  u64le 0 ++ u64le 0 ++ u64le 0 ++
  u64le 0 ++ u64le 0 ++ u64le 0 ++
  u64le 0 ++ u64le 0 ++ u64le 0 ++
  u64le 0 ++ u64le 0 ++ u64le 0

/-- A legacy (`BasisFile`) backend that transcodes levels 0 and 1 and
reports size 0 from level 2 on. -/
def truncBackend : BasisBackend :=
  { hasKTX2File := false, ktx2CtorOk := false, startTranscoding := true,
    getLevels := .ok 4, getNumLevels := .ok 4, numImages := 1,
    sizeKTX2 := fun i => .ok (if i < 2 then 4 else 0),
    sizeBasis := fun i => .ok (if i < 2 then 4 else 0),
    transcodeKTX2 := fun i => .ok (true, [7, i]),
    transcodeBasis := fun i => .ok (true, [7, i]) }

/-- An environment around `truncBackend`. -/
def truncEnv : Env :=
  { fzstdLoads := false, basisLoads := true, fzstd := fun _ => none,
    basis := truncBackend }

/-- The structural parse of `bufRaw4` / `bufLZ4` (identical layout apart
from the supercompression scheme field). -/
def texRaw4 : ParsedTexture :=
  match parseStructure bufRaw4 with
  | .ok t => t
  | .error _ => emptyTexture

/-- Structural parse of `bufLZ4`. -/
def texLZ4 : ParsedTexture :=
  match parseStructure bufLZ4 with
  | .ok t => t
  | .error _ => emptyTexture

/-- A backend whose `KTX2File` path works but whose per-level transcode
throws: `transcodeImage` raises an exception at every level. -/
def throwingBackend : BasisBackend :=
  { hasKTX2File := true, ktx2CtorOk := true, startTranscoding := true,
    getLevels := .ok 1, getNumLevels := .ok 1, numImages := 1,
    sizeKTX2 := fun _ => .ok 4, sizeBasis := fun _ => .ok 4,
    transcodeKTX2 := fun _ => .error (), transcodeBasis := fun _ => .error () }

/-- Environment around `throwingBackend`. -/
def throwingEnv : Env :=
  { fzstdLoads := false, basisLoads := true, fzstd := fun _ => none,
    basis := throwingBackend }

/-- A raw-Basis container with one level (`vkFormat 0`, scheme None). -/
def bufRaw1 : List Nat :=
  KTX2_IDENTIFIER ++
  u32le 0 ++ u32le 1 ++ u32le 4 ++ u32le 4 ++ u32le 1 ++
  u32le 0 ++ u32le 1 ++ u32le 1 ++ u32le 0 ++
  u32le 0 ++ u32le 0 ++ u32le 0 ++ u32le 0 ++ u64le 0 ++ u64le 0 ++
  u64le 0 ++ u64le 0 ++ u64le 0

/-- A backend where both method families work but produce different
payloads, to observe which decode path the BasisLZ branch takes:
the `KTX2File` methods fill `[1,1,1,1]`, the `BasisFile` methods fill
`[2,2,2,2]`. -/
def dualBackend : BasisBackend :=
  { hasKTX2File := true, ktx2CtorOk := true, startTranscoding := true,
    getLevels := .ok 1, getNumLevels := .ok 1, numImages := 1,
    sizeKTX2 := fun _ => .ok 4, sizeBasis := fun _ => .ok 4,
    transcodeKTX2 := fun _ => .ok (true, [1, 1, 1, 1]),
    transcodeBasis := fun _ => .ok (true, [2, 2, 2, 2]) }

/-- Environment around `dualBackend`. -/
def dualEnv : Env :=
  { fzstdLoads := false, basisLoads := true, fzstd := fun _ => none,
    basis := dualBackend }

/-- A BasisLZ container with one level and a DFD whose color model is 160
(ETC1S, not the UASTC value 166): 28-byte DFD block at offset 104,
`colorModel` at relative offset 12. -/
def bufLZdfd160 : List Nat :=
  KTX2_IDENTIFIER ++
  u32le 0 ++ u32le 1 ++ u32le 4 ++ u32le 4 ++ u32le 1 ++
  u32le 0 ++ u32le 1 ++ u32le 1 ++ u32le 1 ++
  u32le 104 ++ u32le 28 ++ u32le 0 ++ u32le 0 ++ u64le 0 ++ u64le 0 ++
  u64le 0 ++ u64le 0 ++ u64le 0 ++
  u32le 28 ++ [0, 0] ++ [0, 0] ++ [0, 2] ++ [0, 1] ++
  [160, 0, 0, 0] ++
  [4, 4, 0, 0] ++
  [8, 0, 0, 0, 0, 0, 0, 0]

/-- A Zstandard container with one level whose declared uncompressed
length is 1024; the level's 4 bytes sit at offset 104. -/
def bufZstd1 : List Nat :=
  KTX2_IDENTIFIER ++
  u32le 37 ++ u32le 1 ++ u32le 4 ++ u32le 4 ++ u32le 1 ++
  u32le 0 ++ u32le 1 ++ u32le 1 ++ u32le 2 ++
  u32le 0 ++ u32le 0 ++ u32le 0 ++ u32le 0 ++ u64le 0 ++ u64le 0 ++
  u64le 104 ++ u64le 4 ++ u64le 1024 ++
  [10, 20, 30, 40]

/-- An environment whose decompressor returns the two-byte output
`[7, 7]` for every input (actual length 2 ≠ declared 1024). -/
def zstdEnv : Env :=
  { fzstdLoads := true, basisLoads := false, fzstd := fun _ => some [7, 7],
    basis := inertBackend }

/-- Structural parse of `bufZstd1`. -/
def texZstd1 : ParsedTexture :=
  match parseStructure bufZstd1 with
  | .ok t => t
  | .error _ => emptyTexture

/-! ## Lemmas: the level index -/

theorem parseLevels_spec (buf : List Nat) (pw ph : Nat) :
    ∀ (count s : Nat) (ls : List Level), parseLevels buf pw ph s count = some ls →
      ls.length = count ∧
      ∀ j (h : j < ls.length),
        (ls[j]).width = levelDim pw (s + j) ∧
        (ls[j]).height = levelDim ph (s + j) ∧
        (ls[j]).isDecompressed = false ∧
        (ls[j]).decompressedData = none := by
  intro count
  induction count with
  | zero =>
    intro s ls h
    simp only [parseLevels, Option.some.injEq] at h
    subst h
    exact ⟨rfl, fun j h => absurd h (by simp)⟩
  | succ n ih =>
    intro s ls h
    simp only [parseLevels] at h
    cases h64a : getUint64? buf (80 + 24 * s) with
    | none => rw [h64a] at h; exact absurd h (by simp)
    | some bo =>
      cases h64b : getUint64? buf (80 + 24 * s + 8) with
      | none => rw [h64a, h64b] at h; exact absurd h (by simp)
      | some bl =>
        cases h64c : getUint64? buf (80 + 24 * s + 16) with
        | none => rw [h64a, h64b, h64c] at h; exact absurd h (by simp)
        | some ul =>
          rw [h64a, h64b, h64c] at h
          cases hrest : parseLevels buf pw ph (s + 1) n with
          | none => rw [hrest] at h; exact absurd h (by simp)
          | some rest =>
            rw [hrest] at h
            simp only [Option.some.injEq] at h
            subst h
            obtain ⟨hlen, hget⟩ := ih (s + 1) rest hrest
            refine ⟨by simp [hlen], ?_⟩
            intro j hj
            cases j with
            | zero => simp [levelDim]
            | succ k =>
              have hk : k < rest.length := by
                simpa [Nat.succ_lt_succ_iff] using hj
              have := hget k hk
              simpa [Nat.add_assoc, Nat.add_comm 1 k, Nat.add_left_comm] using this

/-! ## Lemmas: the Zstandard loop -/

theorem zstdLevels_spec (env : Env) (buf : List Nat) :
    ∀ (ls : List Level) (i : Nat) (ls' : List Level) (ws : List Warning),
      zstdLevels env buf i ls = .ok (ls', ws) →
      ls'.length = ls.length ∧
      ∀ j (h : j < ls.length) (h' : j < ls'.length),
        (ls'[j]).width = (ls[j]).width ∧
        (ls'[j]).height = (ls[j]).height ∧
        ∃ d, env.fzstd (readBytes buf (ls[j]).byteOffset (ls[j]).byteLength) = some d ∧
          (ls'[j]).decompressedData = some d ∧
          (ls'[j]).isDecompressed = true ∧
          (d.length ≠ (ls[j]).uncompressedByteLength →
            Warning.sizeMismatch (i + j) d.length (ls[j]).uncompressedByteLength ∈ ws) := by
  intro ls
  induction ls with
  | nil =>
    intro i ls' ws h
    simp only [zstdLevels, Except.ok.injEq, Prod.mk.injEq] at h
    obtain ⟨h1, _⟩ := h
    subst h1
    exact ⟨rfl, fun j h => absurd h (by simp)⟩
  | cons l rest ih =>
    intro i ls' ws h
    simp only [zstdLevels] at h
    by_cases hb : l.byteOffset + l.byteLength ≤ buf.length
    · rw [if_pos hb] at h
      cases hd : env.fzstd (readBytes buf l.byteOffset l.byteLength) with
      | none => rw [hd] at h; exact absurd h (by simp)
      | some d =>
        rw [hd] at h
        cases hrest : zstdLevels env buf (i + 1) rest with
        | error e => rw [hrest] at h; exact absurd h (by simp)
        | ok p =>
          obtain ⟨ls₂, ws₂⟩ := p
          rw [hrest] at h
          simp only [Except.ok.injEq, Prod.mk.injEq] at h
          obtain ⟨h1, h2⟩ := h
          subst h1; subst h2
          obtain ⟨hlen, hget⟩ := ih (i + 1) ls₂ ws₂ hrest
          refine ⟨by simp [hlen], ?_⟩
          intro j hj hj'
          cases j with
          | zero =>
            refine ⟨rfl, rfl, d, hd, rfl, rfl, ?_⟩
            intro hne
            simp only [List.getElem_cons_zero] at hne ⊢
            simp [hne]
          | succ k =>
            have hk : k < rest.length := by simpa [Nat.succ_lt_succ_iff] using hj
            have hk' : k < ls₂.length := by simpa [Nat.succ_lt_succ_iff] using hj'
            obtain ⟨hw, hh, d', hd', hdd, hidec, hwarn⟩ := hget k hk hk'
            refine ⟨by simpa using hw, by simpa using hh, d', by simpa using hd',
              by simpa using hdd, by simpa using hidec, ?_⟩
            intro hne
            have := hwarn (by simpa using hne)
            simp only [List.getElem_cons_succ] at hne ⊢
            have harith : i + 1 + k = i + (k + 1) := by omega
            rw [← harith]
            exact List.mem_append_right _ this
    · rw [if_neg hb] at h
      exact absurd h (by simp)

theorem zstdLevels_total (env : Env) (buf : List Nat) :
    ∀ (ls : List Level) (i : Nat),
      (∀ j (h : j < ls.length),
        (ls[j]).byteOffset + (ls[j]).byteLength ≤ buf.length ∧
        (env.fzstd (readBytes buf (ls[j]).byteOffset (ls[j]).byteLength)).isSome) →
      ∃ ls' ws, zstdLevels env buf i ls = .ok (ls', ws) := by
  intro ls
  induction ls with
  | nil => intro i _; exact ⟨[], [], rfl⟩
  | cons l rest ih =>
    intro i hyp
    obtain ⟨hb, hs⟩ := hyp 0 (by simp)
    simp only [List.getElem_cons_zero] at hb hs
    obtain ⟨d, hd⟩ := Option.isSome_iff_exists.mp hs
    obtain ⟨ls₂, ws₂, hrest⟩ := ih (i + 1) (fun j h => by
      have := hyp (j + 1) (by simpa [Nat.succ_lt_succ_iff] using h)
      simpa using this)
    refine ⟨{ l with decompressedData := some d, isDecompressed := true } :: ls₂,
      (if d.length = l.uncompressedByteLength then []
       else [.sizeMismatch i d.length l.uncompressedByteLength]) ++ ws₂, ?_⟩
    simp only [zstdLevels, if_pos hb, hd, hrest]

/-! ## Lemmas: the Basis loops -/

@[simp] theorem decorate_width (l : Level) (d : List Nat) : (decorate l d).width = l.width := rfl

@[simp] theorem decorate_height (l : Level) (d : List Nat) : (decorate l d).height = l.height := rfl

theorem basisLZLoop_stop (b : BasisBackend) (isK : Bool) (safe : Nat)
    (ls : List Level) (i : Nat) (hi : ¬ i < safe) :
    basisLZLoop b isK safe i ls = ls := by
  cases ls with
  | nil => rfl
  | cons l rest => simp only [basisLZLoop, if_neg hi]

theorem basisLZLoop_step_none (b : BasisBackend) (isK : Bool) (safe : Nat)
    (ls : List Level) (i : Nat) (h : basisAttempt b isK i = none) :
    basisLZLoop b isK safe i ls = ls := by
  cases ls with
  | nil => rfl
  | cons l rest =>
    simp only [basisLZLoop]
    by_cases hi : i < safe
    · rw [if_pos hi]
      simp only [basisAttempt] at h
      cases hsz : (if isK then b.sizeKTX2 i else b.sizeBasis i) with
      | error e => rfl
      | ok sz =>
        simp only [hsz] at h ⊢
        by_cases hz : sz = 0
        · simp [hz]
        · rw [if_neg hz] at h ⊢
          cases htc : (if isK then b.transcodeKTX2 i else b.transcodeBasis i) with
          | error e => rfl
          | ok r =>
            obtain ⟨status, dst⟩ := r
            simp only [htc] at h ⊢
            by_cases hok : status = true ∧ 0 < dst.length
            · rw [if_pos hok] at h; exact absurd h (by simp)
            · rw [if_neg hok]
    · rw [if_neg hi]

theorem basisLZLoop_step_some (b : BasisBackend) (isK : Bool) (safe : Nat)
    (l : Level) (rest : List Level) (i : Nat) (d : List Nat)
    (h : basisAttempt b isK i = some d) (hi : i < safe) :
    basisLZLoop b isK safe i (l :: rest) =
      decorate l d :: basisLZLoop b isK safe (i + 1) rest := by
  simp only [basisLZLoop, if_pos hi]
  simp only [basisAttempt] at h
  cases hsz : (if isK then b.sizeKTX2 i else b.sizeBasis i) with
  | error e => simp only [hsz] at h; exact absurd h (by simp)
  | ok sz =>
    simp only [hsz] at h ⊢
    by_cases hz : sz = 0
    · rw [if_pos hz] at h; exact absurd h (by simp)
    · rw [if_neg hz] at h ⊢
      cases htc : (if isK then b.transcodeKTX2 i else b.transcodeBasis i) with
      | error e => simp only [htc] at h; exact absurd h (by simp)
      | ok r =>
        obtain ⟨status, dst⟩ := r
        simp only [htc] at h ⊢
        by_cases hok : status = true ∧ 0 < dst.length
        · rw [if_pos hok] at h ⊢
          simp only [Option.some.injEq] at h
          subst h
          rfl
        · rw [if_neg hok] at h; exact absurd h (by simp)

theorem basisLZLoop_map_dim {α : Type} (b : BasisBackend) (isK : Bool) (safe : Nat)
    (f : Level → α) (hf : ∀ l d, f (decorate l d) = f l) :
    ∀ (ls : List Level) (i k : Nat),
      ((basisLZLoop b isK safe i ls)[k]?).map f = (ls[k]?).map f := by
  intro ls
  induction ls with
  | nil => intro i k; rfl
  | cons l rest ih =>
    intro i k
    by_cases hi : i < safe
    · cases ha : basisAttempt b isK i with
      | none => rw [basisLZLoop_step_none b isK safe _ i ha]
      | some d =>
        rw [basisLZLoop_step_some b isK safe l rest i d ha hi]
        cases k with
        | zero => simp [hf]
        | succ k => simpa using ih (i + 1) k
    · rw [basisLZLoop_stop b isK safe _ i hi]

theorem basisLZLoop_length (b : BasisBackend) (isK : Bool) (safe : Nat) :
    ∀ (ls : List Level) (i : Nat), (basisLZLoop b isK safe i ls).length = ls.length := by
  intro ls
  induction ls with
  | nil => intro i; rfl
  | cons l rest ih =>
    intro i
    by_cases hi : i < safe
    · cases ha : basisAttempt b isK i with
      | none => rw [basisLZLoop_step_none b isK safe _ i ha]
      | some d =>
        rw [basisLZLoop_step_some b isK safe l rest i d ha hi]
        simp [ih]
    · rw [basisLZLoop_stop b isK safe _ i hi]

theorem basisLZLoop_trunc (b : BasisBackend) (isK : Bool) (safe : Nat) (p : Nat → List Nat) :
    ∀ (j : Nat) (ls : List Level) (i : Nat),
      (∀ k, k < j → basisAttempt b isK (i + k) = some (p (i + k))) →
      basisAttempt b isK (i + j) = none →
      i + j < safe →
      (∀ k, k < j →
        (basisLZLoop b isK safe i ls)[k]? = (ls[k]?).map (fun l => decorate l (p (i + k)))) ∧
      (∀ k, j ≤ k → (basisLZLoop b isK safe i ls)[k]? = ls[k]?) := by
  intro j
  induction j with
  | zero =>
    intro ls i _ hfail _
    rw [basisLZLoop_step_none b isK safe ls i (by simpa using hfail)]
    exact ⟨fun k hk => absurd hk (by omega), fun _ _ => rfl⟩
  | succ j ih =>
    intro ls i hsucc hfail hsafe
    cases ls with
    | nil =>
      constructor
      · intro k _
        simp [basisLZLoop]
      · intro k _
        simp [basisLZLoop]
    | cons l rest =>
      have h0 : basisAttempt b isK i = some (p i) := by
        have := hsucc 0 (by omega)
        simpa using this
      have hi : i < safe := by omega
      rw [basisLZLoop_step_some b isK safe l rest i (p i) h0 hi]
      obtain ⟨ihA, ihB⟩ := ih rest (i + 1)
        (fun k hk => by
          have := hsucc (k + 1) (by omega)
          have harith : i + (k + 1) = i + 1 + k := by omega
          rwa [harith] at this)
        (by
          have harith : i + (j + 1) = i + 1 + j := by omega
          rwa [harith] at hfail)
        (by omega)
      constructor
      · intro k hk
        cases k with
        | zero => simp
        | succ k =>
          have := ihA k (by omega)
          have harith : i + 1 + k = i + (k + 1) := by omega
          rw [harith] at this
          simpa using this
      · intro k hk
        cases k with
        | zero => omega
        | succ k => simpa using ihB k (by omega)

theorem rawBasisLoop_stop (b : BasisBackend) (isK : Bool) (safe : Nat)
    (ls : List Level) (i : Nat) (hi : ¬ i < safe) :
    rawBasisLoop b isK safe i ls = .ok ls := by
  cases ls with
  | nil => rfl
  | cons l rest => simp only [rawBasisLoop, if_neg hi]

theorem rawBasisLoop_step_none (b : BasisBackend) (isK : Bool) (safe : Nat)
    (ls : List Level) (i : Nat) (hnt : backendNoThrow b isK i = true)
    (h : basisAttempt b isK i = none) :
    rawBasisLoop b isK safe i ls = .ok ls := by
  cases ls with
  | nil => rfl
  | cons l rest =>
    simp only [rawBasisLoop]
    by_cases hi : i < safe
    · rw [if_pos hi]
      simp only [basisAttempt] at h
      simp only [backendNoThrow, Bool.and_eq_true] at hnt
      cases hsz : (if isK then b.sizeKTX2 i else b.sizeBasis i) with
      | error e => rw [hsz] at hnt; exact absurd hnt.1 (by simp [exOk])
      | ok sz =>
        simp only [hsz] at h ⊢
        by_cases hz : sz = 0
        · simp [hz]
        · rw [if_neg hz] at h ⊢
          cases htc : (if isK then b.transcodeKTX2 i else b.transcodeBasis i) with
          | error e => rw [htc] at hnt; exact absurd hnt.2 (by simp [exOk])
          | ok r =>
            obtain ⟨status, dst⟩ := r
            simp only [htc] at h ⊢
            by_cases hok : status = true ∧ 0 < dst.length
            · rw [if_pos hok] at h; exact absurd h (by simp)
            · rw [if_neg hok]
    · rw [if_neg hi]

theorem rawBasisLoop_step_some (b : BasisBackend) (isK : Bool) (safe : Nat)
    (l : Level) (rest : List Level) (i : Nat) (d : List Nat)
    (h : basisAttempt b isK i = some d) (hi : i < safe) :
    rawBasisLoop b isK safe i (l :: rest) =
      (rawBasisLoop b isK safe (i + 1) rest).map (fun r => decorate l d :: r) := by
  simp only [rawBasisLoop, if_pos hi]
  simp only [basisAttempt] at h
  cases hsz : (if isK then b.sizeKTX2 i else b.sizeBasis i) with
  | error e => simp only [hsz] at h; exact absurd h (by simp)
  | ok sz =>
    simp only [hsz] at h ⊢
    by_cases hz : sz = 0
    · rw [if_pos hz] at h; exact absurd h (by simp)
    · rw [if_neg hz] at h ⊢
      cases htc : (if isK then b.transcodeKTX2 i else b.transcodeBasis i) with
      | error e => simp only [htc] at h; exact absurd h (by simp)
      | ok r =>
        obtain ⟨status, dst⟩ := r
        simp only [htc] at h ⊢
        by_cases hok : status = true ∧ 0 < dst.length
        · rw [if_pos hok] at h ⊢
          simp only [Option.some.injEq] at h
          subst h
          cases hr : rawBasisLoop b isK safe (i + 1) rest with
          | error e => rfl
          | ok r => rfl
        · rw [if_neg hok] at h; exact absurd h (by simp)

theorem rawBasisLoop_ok_spec {α : Type} (b : BasisBackend) (isK : Bool) (safe : Nat)
    (f : Level → α) (hf : ∀ l d, f (decorate l d) = f l) :
    ∀ (ls : List Level) (i : Nat) (ls' : List Level),
      rawBasisLoop b isK safe i ls = .ok ls' →
      ls'.length = ls.length ∧ ∀ (k : Nat), (ls'[k]?).map f = (ls[k]?).map f := by
  intro ls
  induction ls with
  | nil =>
    intro i ls' h
    simp only [rawBasisLoop, Except.ok.injEq] at h
    subst h
    exact ⟨rfl, fun k => rfl⟩
  | cons l rest ih =>
    intro i ls' h
    by_cases hi : i < safe
    · simp only [rawBasisLoop, if_pos hi] at h
      cases hsz : (if isK then b.sizeKTX2 i else b.sizeBasis i) with
      | error e => rw [hsz] at h; exact absurd h (by simp)
      | ok sz =>
        simp only [hsz] at h
        by_cases hz : sz = 0
        · rw [if_pos hz] at h
          simp only [Except.ok.injEq] at h
          subst h
          exact ⟨rfl, fun k => rfl⟩
        · rw [if_neg hz] at h
          cases htc : (if isK then b.transcodeKTX2 i else b.transcodeBasis i) with
          | error e => rw [htc] at h; exact absurd h (by simp)
          | ok r =>
            obtain ⟨status, dst⟩ := r
            simp only [htc] at h
            by_cases hok : status = true ∧ 0 < dst.length
            · rw [if_pos hok] at h
              cases hr : rawBasisLoop b isK safe (i + 1) rest with
              | error e => rw [hr] at h; exact absurd h (by simp)
              | ok r2 =>
                rw [hr] at h
                simp only [Except.ok.injEq] at h
                subst h
                obtain ⟨hlen, hget⟩ := ih (i + 1) r2 hr
                refine ⟨by simp [hlen], ?_⟩
                intro k
                cases k with
                | zero =>
                  show ((decorate l dst :: r2)[0]?).map f = ((l :: rest)[0]?).map f
                  simp [hf]
                | succ k =>
                  show ((decorate l dst :: r2)[k + 1]?).map f = ((l :: rest)[k + 1]?).map f
                  simpa using hget k
            · rw [if_neg hok] at h
              simp only [Except.ok.injEq] at h
              subst h
              exact ⟨rfl, fun k => rfl⟩
    · rw [rawBasisLoop_stop b isK safe _ i hi] at h
      simp only [Except.ok.injEq] at h
      subst h
      exact ⟨rfl, fun k => rfl⟩

theorem rawBasisLoop_trunc (b : BasisBackend) (isK : Bool) (safe : Nat) (p : Nat → List Nat) :
    ∀ (j : Nat) (ls : List Level) (i : Nat),
      (∀ k, k < j → basisAttempt b isK (i + k) = some (p (i + k))) →
      backendNoThrow b isK (i + j) = true →
      basisAttempt b isK (i + j) = none →
      i + j < safe →
      ∃ ls', rawBasisLoop b isK safe i ls = .ok ls' ∧
        (∀ k, k < j → ls'[k]? = (ls[k]?).map (fun l => decorate l (p (i + k)))) ∧
        (∀ k, j ≤ k → ls'[k]? = ls[k]?) := by
  intro j
  induction j with
  | zero =>
    intro ls i _ hnt hfail _
    refine ⟨ls, rawBasisLoop_step_none b isK safe ls i (by simpa using hnt) (by simpa using hfail), ?_, ?_⟩
    · intro k hk; exact absurd hk (by omega)
    · intro _ _; rfl
  | succ j ih =>
    intro ls i hsucc hnt hfail hsafe
    cases ls with
    | nil =>
      refine ⟨[], rfl, ?_, ?_⟩
      · intro k _; rfl
      · intro k _; rfl
    | cons l rest =>
      have h0 : basisAttempt b isK i = some (p i) := by
        have := hsucc 0 (by omega)
        simpa using this
      have hi : i < safe := by omega
      have harith : i + 1 + j = i + (j + 1) := by omega
      obtain ⟨ls₂, hls₂, ihA, ihB⟩ := ih rest (i + 1)
        (fun k hk => by
          have := hsucc (k + 1) (by omega)
          have harith2 : i + (k + 1) = i + 1 + k := by omega
          rwa [harith2] at this)
        (by rwa [harith])
        (by rwa [harith])
        (by omega)
      refine ⟨decorate l (p i) :: ls₂, ?_, ?_, ?_⟩
      · rw [rawBasisLoop_step_some b isK safe l rest i (p i) h0 hi, hls₂]
        rfl
      · intro k hk
        cases k with
        | zero => simp
        | succ k =>
          have := ihA k (by omega)
          have harith2 : i + 1 + k = i + (k + 1) := by omega
          rw [harith2] at this
          simpa using this
      · intro k hk
        cases k with
        | zero => omega
        | succ k => simpa using ihB k (by omega)

/-! ## Lemmas: branch functions and dispatch -/

theorem decodeBasisLZ_spec (b : BasisBackend) (levels : List Level)
    (hstart : b.startTranscoding = true)
    (himg : (if b.hasKTX2File && b.ktx2CtorOk then 1 else b.numImages) ≠ 0) :
    decodeBasisLZ b levels =
      (.ok (basisLZLoop b (b.hasKTX2File && b.ktx2CtorOk)
        (min levels.length (lzLevelCount b (b.hasKTX2File && b.ktx2CtorOk))) 0 levels),
       true, true) := by
  simp only [decodeBasisLZ, hstart, if_true, if_neg himg]

theorem decodeRawBasis_spec (b : BasisBackend) (levels : List Level)
    (hctor : b.hasKTX2File = true → b.ktx2CtorOk = true)
    (hstart : b.startTranscoding = true) (lc : Nat)
    (hlc : (if b.hasKTX2File then b.getLevels else b.getNumLevels) = .ok lc) :
    decodeRawBasis b levels =
      match rawBasisLoop b b.hasKTX2File (min levels.length lc) 0 levels with
      | .error _ => (.error .backendError, true, false)
      | .ok ls => (.ok ls, true, true) := by
  have hc : ¬ (b.hasKTX2File = true ∧ ¬ b.ktx2CtorOk = true) := by
    intro ⟨h1, h2⟩; exact h2 (hctor h1)
  simp only [decodeRawBasis, if_neg hc, hstart, if_true, hlc]

theorem parseKTX2_lz (env : Env) (buf : List Nat) (t0 : ParsedTexture)
    (h : parseStructure buf = .ok t0)
    (hs : t0.header.supercompressionScheme = 1)
    (hb : env.basisLoads = true) :
    parseKTX2 env buf =
      match decodeBasisLZ env.basis t0.levels with
      | (.error e, o, c) => ⟨.error e, [], o, c⟩
      | (.ok ls, o, c) => ⟨.ok { t0 with levels := ls }, [], o, c⟩ := by
  simp only [parseKTX2, h, hs, SUPERCOMPRESSION_ZSTD, SUPERCOMPRESSION_NONE,
    SUPERCOMPRESSION_BASIS_LZ, hb]
  norm_num

theorem parseKTX2_raw (env : Env) (buf : List Nat) (t0 : ParsedTexture)
    (h : parseStructure buf = .ok t0)
    (hs : t0.header.supercompressionScheme = 0)
    (hv : t0.header.vkFormat = 0)
    (hb : env.basisLoads = true) :
    parseKTX2 env buf =
      match decodeRawBasis env.basis t0.levels with
      | (.error e, o, c) => ⟨.error e, [], o, c⟩
      | (.ok ls, o, c) => ⟨.ok { t0 with levels := ls }, [], o, c⟩ := by
  simp only [parseKTX2, h, hs, hv, SUPERCOMPRESSION_ZSTD, SUPERCOMPRESSION_NONE, hb]
  norm_num

theorem parseKTX2_zstd (env : Env) (buf : List Nat) (t0 : ParsedTexture)
    (h : parseStructure buf = .ok t0)
    (hs : t0.header.supercompressionScheme = 2)
    (hz : env.fzstdLoads = true) :
    parseKTX2 env buf =
      match zstdLevels env buf 0 t0.levels with
      | .error e => ⟨.error e, [], false, false⟩
      | .ok (ls, ws) => ⟨.ok { t0 with levels := ls }, ws, false, false⟩ := by
  simp only [parseKTX2, h, hs, SUPERCOMPRESSION_ZSTD, hz]
  norm_num

theorem parseKTX2_plain (env : Env) (buf : List Nat) (t0 : ParsedTexture)
    (h : parseStructure buf = .ok t0)
    (hs : t0.header.supercompressionScheme = 0)
    (hv : t0.header.vkFormat ≠ 0) :
    parseKTX2 env buf = ⟨.ok t0, [], false, false⟩ := by
  simp only [parseKTX2, h, hs, hv, SUPERCOMPRESSION_ZSTD, SUPERCOMPRESSION_NONE,
    SUPERCOMPRESSION_BASIS_LZ, SUPERCOMPRESSION_ZLIB]
  norm_num

theorem parseStructure_ok_inv (buf : List Nat) (t0 : ParsedTexture)
    (h : parseStructure buf = .ok t0) :
    t0.header = parseHeader buf ∧
    parseLevels buf (parseHeader buf).pixelWidth (parseHeader buf).pixelHeight 0
      (max 1 (parseHeader buf).levelCount) = some t0.levels := by
  unfold parseStructure at h
  split at h
  · exact absurd h (by simp)
  · split at h
    · exact absurd h (by simp)
    · split at h
      · exact absurd h (by simp)
      · cases hlv : parseLevels buf (parseHeader buf).pixelWidth (parseHeader buf).pixelHeight 0
            (max 1 (parseHeader buf).levelCount) with
        | none =>
          simp only [hlv] at h
          exact absurd h (by simp)
        | some levels =>
          simp only [hlv] at h
          cases hdfd : (if 0 < (parseIndex buf).dfdByteLength then
                         match parseDFD? buf (parseIndex buf).dfdByteOffset (parseIndex buf).dfdByteLength with
                         | none => none
                         | some d => some (some d)
                       else some none : Option (Option DFD)) with
          | none =>
            simp only [hdfd] at h
            exact absurd h (by simp)
          | some dfd =>
            simp only [hdfd] at h
            cases hkvd : (if 0 < (parseIndex buf).kvdByteLength then
                           match parseKVD? buf (parseIndex buf).kvdByteOffset (parseIndex buf).kvdByteLength with
                           | none => none
                           | some kv => some (some kv)
                         else some none : Option (Option (List (List Nat × List Nat)))) with
            | none =>
              simp only [hkvd] at h
              exact absurd h (by simp)
            | some kvd =>
              simp only [hkvd, Except.ok.injEq] at h
              subst h
              exact ⟨rfl, rfl⟩

theorem decodeRawBasis_ok_inv (b : BasisBackend) (levels ls : List Level)
    (o c : Bool) (h : decodeRawBasis b levels = (.ok ls, o, c)) :
    ∃ lc, rawBasisLoop b b.hasKTX2File (min levels.length lc) 0 levels = .ok ls := by
  unfold decodeRawBasis at h
  split at h
  · exact absurd h (by simp)
  · split at h
    · cases hlc : (if b.hasKTX2File then b.getLevels else b.getNumLevels) with
      | error e =>
        simp only [hlc] at h
        exact absurd h (by simp)
      | ok lc =>
        simp only [hlc] at h
        cases hloop : rawBasisLoop b b.hasKTX2File (min levels.length lc) 0 levels with
        | error e =>
          simp only [hloop] at h
          exact absurd h (by simp)
        | ok ls2 =>
          simp only [hloop, Prod.mk.injEq, Except.ok.injEq] at h
          exact ⟨lc, by rw [hloop, h.1]⟩
    · exact absurd h (by simp)

theorem decodeBasisLZ_ok_inv (b : BasisBackend) (levels ls : List Level)
    (o c : Bool) (h : decodeBasisLZ b levels = (.ok ls, o, c)) :
    ls = basisLZLoop b (b.hasKTX2File && b.ktx2CtorOk)
      (min levels.length (lzLevelCount b (b.hasKTX2File && b.ktx2CtorOk))) 0 levels := by
  unfold decodeBasisLZ at h
  by_cases hst : b.startTranscoding = true
  · rw [if_pos hst] at h
    by_cases himg : (if b.hasKTX2File && b.ktx2CtorOk then 1 else b.numImages) = 0
    · rw [if_pos himg] at h
      exact absurd h (by simp)
    · rw [if_neg himg] at h
      simp only [Prod.mk.injEq, Except.ok.injEq] at h
      exact h.1.symm
  · rw [if_neg hst] at h
    exact absurd h (by simp)

theorem parseKTX2_ok_inv (env : Env) (buf : List Nat) (t : ParsedTexture)
    (h : (parseKTX2 env buf).result = .ok t) :
    ∃ t0, parseStructure buf = .ok t0 ∧ t.header = t0.header ∧
      t.levels.length = t0.levels.length ∧
      ∀ (j : Nat),
        (t.levels[j]?).map Level.width = (t0.levels[j]?).map Level.width ∧
        (t.levels[j]?).map Level.height = (t0.levels[j]?).map Level.height := by
  unfold parseKTX2 at h
  cases hps : parseStructure buf with
  | error e =>
    simp only [hps] at h
    exact absurd h (by simp)
  | ok t0 =>
    simp only [hps] at h
    refine ⟨t0, rfl, ?_⟩
    by_cases hs2 : t0.header.supercompressionScheme = SUPERCOMPRESSION_ZSTD
    · rw [if_pos hs2] at h
      by_cases hfz : env.fzstdLoads = true
      · rw [if_pos hfz] at h
        cases hz : zstdLevels env buf 0 t0.levels with
        | error e =>
          simp only [hz] at h
          exact absurd h (by simp)
        | ok p =>
          obtain ⟨ls, ws⟩ := p
          simp only [hz, Except.ok.injEq] at h
          subst h
          obtain ⟨hlen, hget⟩ := zstdLevels_spec env buf t0.levels 0 ls ws hz
          refine ⟨rfl, hlen, ?_⟩
          intro j
          by_cases hj : j < t0.levels.length
          · have hj2 : j < ls.length := by omega
            obtain ⟨hw, hh, _⟩ := hget j hj hj2
            rw [List.getElem?_eq_getElem hj2, List.getElem?_eq_getElem hj]
            simp [hw, hh]
          · rw [List.getElem?_eq_none (show ls.length ≤ j by omega),
                List.getElem?_eq_none (show t0.levels.length ≤ j by omega)]
            exact ⟨rfl, rfl⟩
      · rw [if_neg hfz] at h
        simp at h
    · rw [if_neg hs2] at h
      by_cases hraw : t0.header.vkFormat = 0 ∧ t0.header.supercompressionScheme = SUPERCOMPRESSION_NONE
      · rw [if_pos hraw] at h
        by_cases hbl : env.basisLoads = true
        · rw [if_pos hbl] at h
          cases hd : decodeRawBasis env.basis t0.levels with
          | mk res oc =>
            obtain ⟨o, c⟩ := oc
            simp only [hd] at h
            cases res with
            | error e => exact absurd h (by simp)
            | ok ls =>
              simp only [Except.ok.injEq] at h
              subst h
              obtain ⟨lc, hloop⟩ := decodeRawBasis_ok_inv env.basis t0.levels ls o c hd
              obtain ⟨hlenW, hgetW⟩ := rawBasisLoop_ok_spec env.basis env.basis.hasKTX2File
                (min t0.levels.length lc) Level.width (fun _ _ => rfl) t0.levels 0 ls hloop
              obtain ⟨_, hgetH⟩ := rawBasisLoop_ok_spec env.basis env.basis.hasKTX2File
                (min t0.levels.length lc) Level.height (fun _ _ => rfl) t0.levels 0 ls hloop
              exact ⟨rfl, hlenW, fun j => ⟨hgetW j, hgetH j⟩⟩
        · rw [if_neg hbl] at h
          simp at h
      · rw [if_neg hraw] at h
        by_cases hlz : t0.header.supercompressionScheme = SUPERCOMPRESSION_BASIS_LZ
        · rw [if_pos hlz] at h
          by_cases hbl : env.basisLoads = true
          · rw [if_pos hbl] at h
            cases hd : decodeBasisLZ env.basis t0.levels with
            | mk res oc =>
              obtain ⟨o, c⟩ := oc
              simp only [hd] at h
              cases res with
              | error e => exact absurd h (by simp)
              | ok ls =>
                simp only [Except.ok.injEq] at h
                subst h
                have hls := decodeBasisLZ_ok_inv env.basis t0.levels ls o c hd
                subst hls
                refine ⟨rfl, basisLZLoop_length _ _ _ _ _, ?_⟩
                intro j
                exact ⟨basisLZLoop_map_dim _ _ _ Level.width (fun _ _ => rfl) t0.levels 0 j,
                       basisLZLoop_map_dim _ _ _ Level.height (fun _ _ => rfl) t0.levels 0 j⟩
          · rw [if_neg hbl] at h
            simp at h
        · rw [if_neg hlz] at h
          by_cases hzl : t0.header.supercompressionScheme = SUPERCOMPRESSION_ZLIB
          · rw [if_pos hzl] at h
            simp at h
          · rw [if_neg hzl] at h
            by_cases hn : t0.header.supercompressionScheme = SUPERCOMPRESSION_NONE
            · rw [if_pos hn] at h
              simp only [Except.ok.injEq] at h
              subst h
              exact ⟨rfl, rfl, fun j => ⟨rfl, rfl⟩⟩
            · rw [if_neg hn] at h
              simp at h

/-- C2: for every successfully parsed buffer the level sequence has
exactly `max 1 header.levelCount` entries and every level's dimensions obey
`width = max(1, pixelWidth >> i)`, `height = max(1, pixelHeight >> i)`
(JavaScript signed 32-bit shift), never stored independently of that rule. -/
theorem c2_level_count_and_dims :
    ∀ (env : Env) (buf : List Nat) (t : ParsedTexture),
      (parseKTX2 env buf).result = .ok t →
      t.levels.length = max 1 t.header.levelCount ∧
      ∀ (j : Nat) (hj : j < t.levels.length),
        (t.levels[j]).width = (max 1 (jsShr t.header.pixelWidth j)).toNat ∧
        (t.levels[j]).height = (max 1 (jsShr t.header.pixelHeight j)).toNat := by
  intro env buf t h
  obtain ⟨t0, hps, hhd, hlen, hget⟩ := parseKTX2_ok_inv env buf t h
  obtain ⟨hhd0, hlv⟩ := parseStructure_ok_inv buf t0 hps
  obtain ⟨hlen0, hget0⟩ := parseLevels_spec buf (parseHeader buf).pixelWidth
    (parseHeader buf).pixelHeight (max 1 (parseHeader buf).levelCount) 0 t0.levels hlv
  constructor
  · rw [hlen, hlen0, hhd, hhd0]
  · intro j hj
    have hj0 : j < t0.levels.length := by omega
    obtain ⟨hw0, hh0, _, _⟩ := hget0 j hj0
    obtain ⟨hw, hh⟩ := hget j
    rw [List.getElem?_eq_getElem hj, List.getElem?_eq_getElem hj0] at hw hh
    simp only [Option.map_some', Option.some.injEq] at hw hh
    rw [hw, hh, hw0, hh0, hhd, hhd0]
    simp [levelDim]

/-! ## Claim theorems -/

theorem readBytes_length (buf : List Nat) (off len : Nat) (h : off + len ≤ buf.length) :
    (readBytes buf off len).length = len := by
  simp only [readBytes, List.length_take, List.length_drop]
  omega

/-- C10: `getLevelData` returns the attached decoded payload exactly when
`isDecompressed` is set and a payload is attached; in every other case —
including a level whose decode failed or was truncated — it returns the raw
slice of `byteLength` bytes starting at `byteOffset` of the original
buffer. -/
theorem c10_level_accessor :
    ∀ (buf : List Nat) (l : Level),
      (∀ d : List Nat, l.isDecompressed = true → l.decompressedData = some d →
        getLevelData buf l = some d) ∧
      ((l.isDecompressed = false ∨ l.decompressedData = none) →
        l.byteOffset + l.byteLength ≤ buf.length →
        getLevelData buf l = some (readBytes buf l.byteOffset l.byteLength) ∧
        (readBytes buf l.byteOffset l.byteLength).length = l.byteLength) := by
  intro buf l
  constructor
  · intro d h1 h2
    simp [getLevelData, h1, h2]
  · intro hcase hb
    refine ⟨?_, readBytes_length buf l.byteOffset l.byteLength hb⟩
    rcases hcase with hf | hn
    · simp [getLevelData, hf, hb]
    · cases hflag : l.isDecompressed with
      | false => simp [getLevelData, hflag, hb]
      | true => simp [getLevelData, hflag, hn, hb]

/-- C10 witness: a decoded level returns its payload; an undecoded level of
the same geometry returns the 3-byte raw slice at offset 2. -/
theorem c10_level_accessor_witness :
    getLevelData [0, 1, 2, 3, 4, 5]
      { byteOffset := 2, byteLength := 3, uncompressedByteLength := 0, width := 1, height := 1,
        isDecompressed := true, decompressedData := some [9, 9] } = some [9, 9] ∧
    getLevelData [0, 1, 2, 3, 4, 5]
      { byteOffset := 2, byteLength := 3, uncompressedByteLength := 0, width := 1, height := 1 }
      = some [2, 3, 4] :=
  ⟨(c10_level_accessor [0, 1, 2, 3, 4, 5] _).1 [9, 9] rfl rfl,
   by
    have := ((c10_level_accessor [0, 1, 2, 3, 4, 5]
      { byteOffset := 2, byteLength := 3, uncompressedByteLength := 0, width := 1, height := 1 }).2
      (Or.inl rfl) (by decide)).1
    simpa using this⟩

/-- C3 counterexample: a 12-byte all-zero buffer is shorter than 80 bytes,
yet `parseKTX2` fails with `InvalidIdentifier`, not `Truncated` — the
identifier comparison runs before the length check. -/
theorem c3_counterexample :
    (List.replicate 12 0).length < 80 ∧
    (parseKTX2 inertEnv (List.replicate 12 0)).result = .error .invalidIdentifier ∧
    ParseError.invalidIdentifier ≠ ParseError.truncated := by
  refine ⟨by decide, rfl, by decide⟩

/-- C3 amended: a buffer shorter than 12 bytes fails with the range error
of the identifier-view construction; a buffer of at least 12 bytes whose
first 12 bytes differ from the magic fails with `InvalidIdentifier`; and a
buffer whose first 12 bytes equal the magic and whose length is below 80
fails with `Truncated`. -/
theorem c3_short_buffer :
    ∀ (env : Env) (buf : List Nat),
      (buf.length < 12 → (parseKTX2 env buf).result = .error .rangeError) ∧
      (12 ≤ buf.length → readBytes buf 0 12 ≠ KTX2_IDENTIFIER →
        (parseKTX2 env buf).result = .error .invalidIdentifier) ∧
      (readBytes buf 0 12 = KTX2_IDENTIFIER → buf.length < 80 →
        (parseKTX2 env buf).result = .error .truncated) := by
  intro env buf
  refine ⟨?_, ?_, ?_⟩
  · intro h
    simp [parseKTX2, parseStructure, h]
  · intro h12 hne
    have hid : ¬ checkIdentifier buf = true := by
      simp [checkIdentifier, hne]
    simp [parseKTX2, parseStructure, hid, Nat.not_lt.mpr h12]
  · intro hmag h80
    have h12 : 12 ≤ buf.length := by
      have : (readBytes buf 0 12).length = 12 := by rw [hmag]; rfl
      simp only [readBytes, List.length_take, List.length_drop] at this
      omega
    have hid : checkIdentifier buf = true := by
      simp [checkIdentifier, hmag]
    simp [parseKTX2, parseStructure, hid, Nat.not_lt.mpr h12, h80]

/-- C3 amended witness: the three failure modes at concrete buffers. -/
theorem c3_short_buffer_witness :
    (parseKTX2 inertEnv [5]).result = .error .rangeError ∧
    (parseKTX2 inertEnv (List.replicate 20 7)).result = .error .invalidIdentifier ∧
    (parseKTX2 inertEnv (KTX2_IDENTIFIER ++ [1, 2, 3])).result = .error .truncated :=
  ⟨(c3_short_buffer inertEnv [5]).1 (by decide),
   (c3_short_buffer inertEnv (List.replicate 20 7)).2.1 (by decide) (by decide),
   (c3_short_buffer inertEnv (KTX2_IDENTIFIER ++ [1, 2, 3])).2.2 (by decide) (by decide)⟩

/-- C7: the claim that every Basis-family path releases the backend file
handle is violated by the raw-Basis branch — its per-level backend calls
are not wrapped in try/catch, so a thrown `transcodeImage` exception
propagates out of `parseKTX2` with the handle opened but never closed
(`close()`/`delete()` unreached). -/
theorem c7_handle_leak_on_throw :
    (parseKTX2 throwingEnv bufRaw1).result = .error .backendError ∧
    (parseKTX2 throwingEnv bufRaw1).basisOpened = true ∧
    (parseKTX2 throwingEnv bufRaw1).basisClosed = false :=
  ⟨rfl, rfl, rfl⟩

/-- C5 counterexample: a BasisLZ container whose DFD color model is 160
(ETC1S, not 166) decoded against a backend whose `KTX2File` methods fill
`[1,1,1,1]` and whose `BasisFile` methods fill `[2,2,2,2]`: the level
payload is `[1,1,1,1]`, i.e. the `KTX2File` ("UASTC") call sequence was
used even though the color model says ETC1S — the DFD does not select the
decode path. -/
theorem c5_counterexample :
    (parseKTX2 dualEnv bufLZdfd160).result.map
        (fun t => (t.dfd.map DFD.colorModel, t.levels.map Level.decompressedData))
      = .ok (some 160, [some [1, 1, 1, 1]]) ∧
    (160 : Nat) ≠ 166 ∧
    ([1, 1, 1, 1] : List Nat) ≠ [2, 2, 2, 2] :=
  ⟨rfl, by decide, by decide⟩

/-- C6: when the resolved descriptor is block-compressed and the DFD's
first-plane byte count is nonzero and disagrees with the table's
bytes-per-block, `applyDFDCorrections` replaces bytes-per-block with the
DFD value; in the ETC1/ETC2 code range 148–154 the format tag is
re-derived from the corrected size (8-byte blocks give the RGB tag, or the
RGB+1-bit-alpha tag when the DFD color model is 162; 16-byte blocks give
the RGBA tag). -/
theorem c6_dfd_correction :
    ∀ (vk : Nat) (fi : FormatInfo) (d : DFD) (dB : Nat),
      vkFormatToWebGPU vk = some fi →
      optTruthy fi.blockWidth = true →
      d.bytesPlane.headD 0 = dB →
      dB ≠ 0 →
      some dB ≠ fi.bytesPerBlock →
      ∃ fi', applyDFDCorrections (some fi) (some d) vk = some fi' ∧
        fi'.bytesPerBlock = some dB ∧
        (148 ≤ vk ∧ vk ≤ 154 →
          (dB = 8 → fi'.format =
            (if d.colorModel = 162 then "etc2-rgb8a1unorm" else "etc2-rgb8unorm")) ∧
          (dB = 16 → fi'.format = "etc2-rgba8unorm")) := by
  intro vk fi d dB hvk hbw hdBeq hdB0 hne
  subst hdBeq
  have hguard : (optTruthy fi.blockWidth && decide (d.bytesPlane.headD 0 ≠ 0)) = true := by
    rw [hbw, Bool.true_and, decide_eq_true_eq]
    exact hdB0
  simp only [applyDFDCorrections, hguard, if_true]
  rw [if_pos hne]
  by_cases hrange : 148 ≤ vk ∧ vk ≤ 154
  · rw [if_pos hrange]
    by_cases h8 : d.bytesPlane.headD 0 = 8
    · rw [if_pos h8]
      by_cases h160 : d.colorModel = 160
      · rw [if_pos h160]
        refine ⟨_, rfl, rfl, fun _ => ⟨fun _ => ?_, fun h16 => ?_⟩⟩
        · rw [if_neg (by omega)]
        · omega
      · rw [if_neg h160]
        by_cases h162 : d.colorModel = 162
        · rw [if_pos h162]
          refine ⟨_, rfl, rfl, fun _ => ⟨fun _ => ?_, fun h16 => ?_⟩⟩
          · rw [if_pos h162]
          · omega
        · rw [if_neg h162]
          refine ⟨_, rfl, rfl, fun _ => ⟨fun _ => ?_, fun h16 => ?_⟩⟩
          · rw [if_neg h162]
          · omega
    · rw [if_neg h8]
      by_cases h16 : d.bytesPlane.headD 0 = 16
      · rw [if_pos h16]
        refine ⟨_, rfl, rfl, fun _ => ⟨fun h8b => ?_, fun _ => rfl⟩⟩
        omega
      · rw [if_neg h16]
        refine ⟨_, rfl, rfl, fun _ => ⟨fun h8b => ?_, fun h16b => ?_⟩⟩
        · omega
        · omega
  · rw [if_neg hrange]
    exact ⟨_, rfl, rfl, fun hr => absurd hr hrange⟩

/-- C6 witness: `vkFormat 152` (table: 8-byte ETC2 RGB) with a DFD whose
first plane size is 16 is corrected to 16 bytes per block and re-tagged
`etc2-rgba8unorm`. -/
theorem c6_dfd_correction_witness :
    ∃ fi', applyDFDCorrections (vkFormatToWebGPU 152)
        (some { totalSize := 0, vendorId := 0, descriptorType := 0, versionNumber := 0,
                descriptorBlockSize := 0, colorModel := 160, colorPrimaries := 0,
                transferFunction := 0, flags := 0, texelBlockDimension := [4, 4, 0, 0],
                bytesPlane := [16, 0, 0, 0, 0, 0, 0, 0] }) 152 = some fi' ∧
      fi'.bytesPerBlock = some 16 ∧ fi'.format = "etc2-rgba8unorm" := by
  obtain ⟨fi', h1, h2, h3⟩ := c6_dfd_correction 152 (blockEntry "etc2-rgb8unorm" 4 4 8)
    { totalSize := 0, vendorId := 0, descriptorType := 0, versionNumber := 0,
      descriptorBlockSize := 0, colorModel := 160, colorPrimaries := 0,
      transferFunction := 0, flags := 0, texelBlockDimension := [4, 4, 0, 0],
      bytesPlane := [16, 0, 0, 0, 0, 0, 0, 0] } 16 rfl (by decide) (by decide) (by decide)
    (by decide)
  exact ⟨fi', h1, h2, (h3 (by decide)).2 rfl⟩

/-- C2 witness: `bufPlain` (RGBA8, one level, 4×4) parses and its level
sequence satisfies the count and dimension rules. -/
theorem c2_level_count_and_dims_witness :
    (parseKTX2 inertEnv bufPlain).result = .ok texPlain ∧
    texPlain.levels.length = max 1 texPlain.header.levelCount ∧
    (texPlain.levels.get ⟨0, by decide⟩).width = (max 1 (jsShr texPlain.header.pixelWidth 0)).toNat := by
  refine ⟨rfl, ?_, ?_⟩
  · exact (c2_level_count_and_dims inertEnv bufPlain texPlain rfl).1
  · exact ((c2_level_count_and_dims inertEnv bufPlain texPlain rfl).2 0 (by decide)).1

/-- C4: under the Zstandard scheme, when every level's byte range is in
bounds and the decompressor succeeds on each, the parse succeeds; each
level stores the actual decompressed output (whatever its length) with
`isDecompressed = true`, and any level whose output length differs from
its declared uncompressed length contributes a non-fatal
`SizeMismatchWarning`. -/
theorem c4_zstd_size_mismatch_tolerated :
    ∀ (env : Env) (buf : List Nat) (t0 : ParsedTexture) (outs : Nat → List Nat),
      parseStructure buf = .ok t0 →
      t0.header.supercompressionScheme = 2 →
      env.fzstdLoads = true →
      (∀ (j : Nat) (hj : j < t0.levels.length),
        (t0.levels[j]).byteOffset + (t0.levels[j]).byteLength ≤ buf.length) →
      (∀ (j : Nat) (hj : j < t0.levels.length),
        env.fzstd (readBytes buf (t0.levels[j]).byteOffset (t0.levels[j]).byteLength)
          = some (outs j)) →
      ∃ t ws, parseKTX2 env buf = ⟨.ok t, ws, false, false⟩ ∧
        t.levels.length = t0.levels.length ∧
        (∀ (j : Nat) (hj : j < t.levels.length) (hj0 : j < t0.levels.length),
          (t.levels[j]).decompressedData = some (outs j) ∧
          (t.levels[j]).isDecompressed = true) ∧
        (∀ (j : Nat) (hj0 : j < t0.levels.length),
          (outs j).length ≠ (t0.levels[j]).uncompressedByteLength →
          Warning.sizeMismatch j (outs j).length (t0.levels[j]).uncompressedByteLength ∈ ws) := by
  intro env buf t0 outs hps hs hfz hbounds houts
  obtain ⟨ls, ws, hz⟩ := zstdLevels_total env buf t0.levels 0 (fun j hj =>
    ⟨hbounds j hj, by rw [houts j hj]; rfl⟩)
  obtain ⟨hlen, hget⟩ := zstdLevels_spec env buf t0.levels 0 ls ws hz
  refine ⟨{ t0 with levels := ls }, ws, ?_, hlen, ?_, ?_⟩
  · rw [parseKTX2_zstd env buf t0 hps hs hfz, hz]
  · intro j hj hj0
    obtain ⟨_, _, d, hd, hdd, hidec, _⟩ := hget j hj0 hj
    rw [houts j hj0] at hd
    simp only [Option.some.injEq] at hd
    subst hd
    exact ⟨hdd, hidec⟩
  · intro j hj0 hmis
    have hj : j < ls.length := by omega
    obtain ⟨_, _, d, hd, _, _, hwarn⟩ := hget j hj0 hj
    rw [houts j hj0] at hd
    simp only [Option.some.injEq] at hd
    subst hd
    simpa using hwarn hmis

/-- C4 witness: `bufZstd1` (declared length 1024) against a decompressor
producing 2 bytes: the parse succeeds, the level keeps the 2-byte output
with `isDecompressed = true`, and the size-mismatch warning is emitted. -/
theorem c4_zstd_size_mismatch_tolerated_witness :
    ∃ t ws, parseKTX2 zstdEnv bufZstd1 = ⟨.ok t, ws, false, false⟩ ∧
      t.levels.length = texZstd1.levels.length ∧
      (∀ (j : Nat) (hj : j < t.levels.length) (hj0 : j < texZstd1.levels.length),
        (t.levels[j]).decompressedData = some [7, 7] ∧
        (t.levels[j]).isDecompressed = true) ∧
      (∀ (j : Nat) (hj0 : j < texZstd1.levels.length),
        ([7, 7] : List Nat).length ≠ (texZstd1.levels[j]).uncompressedByteLength →
        Warning.sizeMismatch j ([7, 7] : List Nat).length
          (texZstd1.levels[j]).uncompressedByteLength ∈ ws) :=
  c4_zstd_size_mismatch_tolerated zstdEnv bufZstd1 texZstd1 (fun _ => [7, 7]) rfl rfl rfl
    (fun j hj => by
      have h1 : texZstd1.levels.length = 1 := by decide
      have hj0 : j = 0 := by omega
      subst hj0
      have h2 : (texZstd1.levels.get ⟨0, by decide⟩).byteOffset +
          (texZstd1.levels.get ⟨0, by decide⟩).byteLength ≤ bufZstd1.length := by decide
      exact h2)
    (fun j hj => by
      have h1 : texZstd1.levels.length = 1 := by decide
      have hj0 : j = 0 := by omega
      subst hj0
      rfl)

/-- C1: for both Basis-family decode paths — scheme None with the Basis
sentinel format code `vkFormat = 0` (first conjunct) and scheme BasisLZ
(second conjunct) — levels are processed in ascending order and the loop
stops at the first level whose attempt produces no non-empty payload
(`basisAttempt _ _ j = none`): every earlier level carries its decoded
payload with `isDecompressed = true`, every level from the failing index on
is exactly the untouched descriptor from container parsing (no payload, no
flag — so no already-set outcome is ever cleared), and `parseKTX2` still
returns a `ParsedTexture`.  In the raw branch a thrown backend exception
is not caught, so that conjunct additionally assumes the failing level's
calls return rather than throw (`backendNoThrow`). -/
theorem c1_basis_truncation :
    (∀ (env : Env) (buf : List Nat) (t0 : ParsedTexture) (lc j : Nat) (p : Nat → List Nat),
      parseStructure buf = .ok t0 →
      t0.header.supercompressionScheme = 0 →
      t0.header.vkFormat = 0 →
      env.basisLoads = true →
      (env.basis.hasKTX2File = true → env.basis.ktx2CtorOk = true) →
      env.basis.startTranscoding = true →
      (if env.basis.hasKTX2File then env.basis.getLevels else env.basis.getNumLevels) = .ok lc →
      j < min t0.levels.length lc →
      (∀ k, k < j → basisAttempt env.basis env.basis.hasKTX2File k = some (p k)) →
      backendNoThrow env.basis env.basis.hasKTX2File j = true →
      basisAttempt env.basis env.basis.hasKTX2File j = none →
      ∃ t, (parseKTX2 env buf).result = .ok t ∧
        t.levels.length = t0.levels.length ∧
        (∀ (k : Nat) (hk : k < j) (hk2 : k < t.levels.length),
          (t.levels[k]).decompressedData = some (p k) ∧
          (t.levels[k]).isDecompressed = true) ∧
        (∀ (k : Nat) (hk : j ≤ k) (hk2 : k < t.levels.length),
          (t.levels[k]).decompressedData = none ∧
          (t.levels[k]).isDecompressed = false)) ∧
    (∀ (env : Env) (buf : List Nat) (t0 : ParsedTexture) (j : Nat) (p : Nat → List Nat),
      parseStructure buf = .ok t0 →
      t0.header.supercompressionScheme = 1 →
      env.basisLoads = true →
      env.basis.startTranscoding = true →
      (if env.basis.hasKTX2File && env.basis.ktx2CtorOk then 1 else env.basis.numImages) ≠ 0 →
      j < min t0.levels.length
            (lzLevelCount env.basis (env.basis.hasKTX2File && env.basis.ktx2CtorOk)) →
      (∀ k, k < j →
        basisAttempt env.basis (env.basis.hasKTX2File && env.basis.ktx2CtorOk) k = some (p k)) →
      basisAttempt env.basis (env.basis.hasKTX2File && env.basis.ktx2CtorOk) j = none →
      ∃ t, (parseKTX2 env buf).result = .ok t ∧
        t.levels.length = t0.levels.length ∧
        (∀ (k : Nat) (hk : k < j) (hk2 : k < t.levels.length),
          (t.levels[k]).decompressedData = some (p k) ∧
          (t.levels[k]).isDecompressed = true) ∧
        (∀ (k : Nat) (hk : j ≤ k) (hk2 : k < t.levels.length),
          (t.levels[k]).decompressedData = none ∧
          (t.levels[k]).isDecompressed = false)) := by
  constructor
  · intro env buf t0 lc j p hps hs hv hbl hctor hstart hlc hjsafe hsucc hnt hfail
    obtain ⟨ls, hloop, hA, hB⟩ := rawBasisLoop_trunc env.basis env.basis.hasKTX2File
      (min t0.levels.length lc) p j t0.levels 0
      (fun k hk => by simpa using hsucc k hk)
      (by simpa using hnt) (by simpa using hfail) (by simpa using hjsafe)
    have hdr := decodeRawBasis_spec env.basis t0.levels hctor hstart lc hlc
    rw [hloop] at hdr
    have hparse := parseKTX2_raw env buf t0 hps hs hv hbl
    rw [hdr] at hparse
    obtain ⟨_, hlv⟩ := parseStructure_ok_inv buf t0 hps
    obtain ⟨hlen0, hget0⟩ := parseLevels_spec buf (parseHeader buf).pixelWidth
      (parseHeader buf).pixelHeight (max 1 (parseHeader buf).levelCount) 0 t0.levels hlv
    obtain ⟨hlslen, _⟩ := rawBasisLoop_ok_spec env.basis env.basis.hasKTX2File
      (min t0.levels.length lc) Level.width (fun _ _ => rfl) t0.levels 0 ls hloop
    refine ⟨{ t0 with levels := ls }, by rw [hparse], hlslen, ?_, ?_⟩
    · intro k hk hk2
      have hk3 : k < ls.length := hk2
      have heq := hA k hk
      rw [List.getElem?_eq_getElem hk3,
        List.getElem?_eq_getElem (show k < t0.levels.length by omega)] at heq
      simp only [Option.map_some', Option.some.injEq, Nat.zero_add] at heq
      show ls[k].decompressedData = some (p k) ∧ ls[k].isDecompressed = true
      rw [heq]
      exact ⟨rfl, rfl⟩
    · intro k hk hk2
      have hk3 : k < ls.length := hk2
      have hk0 : k < t0.levels.length := by omega
      have heq := hB k hk
      rw [List.getElem?_eq_getElem hk3, List.getElem?_eq_getElem hk0] at heq
      simp only [Option.some.injEq] at heq
      obtain ⟨_, _, hdec0, hdd0⟩ := hget0 k hk0
      show ls[k].decompressedData = none ∧ ls[k].isDecompressed = false
      rw [heq]
      exact ⟨hdd0, hdec0⟩
  · intro env buf t0 j p hps hs hbl hstart himg hjsafe hsucc hfail
    obtain ⟨hA, hB⟩ := basisLZLoop_trunc env.basis
      (env.basis.hasKTX2File && env.basis.ktx2CtorOk)
      (min t0.levels.length (lzLevelCount env.basis (env.basis.hasKTX2File && env.basis.ktx2CtorOk)))
      p j t0.levels 0
      (fun k hk => by simpa using hsucc k hk)
      (by simpa using hfail) (by simpa using hjsafe)
    have hdlz := decodeBasisLZ_spec env.basis t0.levels hstart himg
    have hparse := parseKTX2_lz env buf t0 hps hs hbl
    rw [hdlz] at hparse
    obtain ⟨_, hlv⟩ := parseStructure_ok_inv buf t0 hps
    obtain ⟨hlen0, hget0⟩ := parseLevels_spec buf (parseHeader buf).pixelWidth
      (parseHeader buf).pixelHeight (max 1 (parseHeader buf).levelCount) 0 t0.levels hlv
    have hlslen := basisLZLoop_length env.basis
      (env.basis.hasKTX2File && env.basis.ktx2CtorOk)
      (min t0.levels.length (lzLevelCount env.basis (env.basis.hasKTX2File && env.basis.ktx2CtorOk)))
      t0.levels 0
    set ls := basisLZLoop env.basis (env.basis.hasKTX2File && env.basis.ktx2CtorOk)
      (min t0.levels.length (lzLevelCount env.basis (env.basis.hasKTX2File && env.basis.ktx2CtorOk)))
      0 t0.levels with hls
    refine ⟨{ t0 with levels := ls }, by rw [hparse], hlslen, ?_, ?_⟩
    · intro k hk hk2
      have hk3 : k < ls.length := hk2
      have heq := hA k hk
      rw [List.getElem?_eq_getElem hk3,
        List.getElem?_eq_getElem (show k < t0.levels.length by omega)] at heq
      simp only [Option.map_some', Option.some.injEq, Nat.zero_add] at heq
      show ls[k].decompressedData = some (p k) ∧ ls[k].isDecompressed = true
      rw [heq]
      exact ⟨rfl, rfl⟩
    · intro k hk hk2
      have hk3 : k < ls.length := hk2
      have hk0 : k < t0.levels.length := by omega
      have heq := hB k hk
      rw [List.getElem?_eq_getElem hk3, List.getElem?_eq_getElem hk0] at heq
      simp only [Option.some.injEq] at heq
      obtain ⟨_, _, hdec0, hdd0⟩ := hget0 k hk0
      show ls[k].decompressedData = none ∧ ls[k].isDecompressed = false
      rw [heq]
      exact ⟨hdd0, hdec0⟩

/-- C1 witness: both branches on a 4-level container against a backend
that succeeds on levels 0–1 and reports size 0 from level 2 on. -/
theorem c1_basis_truncation_witness :
    (∃ t, (parseKTX2 truncEnv bufRaw4).result = .ok t ∧
      t.levels.length = texRaw4.levels.length ∧
      (∀ (k : Nat) (hk : k < 2) (hk2 : k < t.levels.length),
        (t.levels[k]).decompressedData = some [7, k] ∧
        (t.levels[k]).isDecompressed = true) ∧
      (∀ (k : Nat) (hk : 2 ≤ k) (hk2 : k < t.levels.length),
        (t.levels[k]).decompressedData = none ∧
        (t.levels[k]).isDecompressed = false)) ∧
    (∃ t, (parseKTX2 truncEnv bufLZ4).result = .ok t ∧
      t.levels.length = texLZ4.levels.length ∧
      (∀ (k : Nat) (hk : k < 2) (hk2 : k < t.levels.length),
        (t.levels[k]).decompressedData = some [7, k] ∧
        (t.levels[k]).isDecompressed = true) ∧
      (∀ (k : Nat) (hk : 2 ≤ k) (hk2 : k < t.levels.length),
        (t.levels[k]).decompressedData = none ∧
        (t.levels[k]).isDecompressed = false)) :=
  ⟨c1_basis_truncation.1 truncEnv bufRaw4 texRaw4 4 2 (fun k => [7, k]) rfl rfl rfl rfl
    (by decide) rfl rfl (by decide)
    (by
      intro k hk
      have h2 : k = 0 ∨ k = 1 := by omega
      rcases h2 with h | h <;> subst h <;> rfl)
    rfl rfl,
   c1_basis_truncation.2 truncEnv bufLZ4 texLZ4 2 (fun k => [7, k]) rfl rfl rfl rfl
    (by decide) (by decide)
    (by
      intro k hk
      have h2 : k = 0 ∨ k = 1 := by omega
      rcases h2 with h | h <;> subst h <;> rfl)
    rfl⟩

/-- C5 amended: under BasisLZ the code computes `isUASTC` from the DFD but
never uses it; the decode target is selected by whether the transcoder
module exposes a usable `KTX2File` constructor (`isK`): when it does, the
`KTX2File` ("UASTC") call sequence is used, otherwise the `BasisFile`
("ETC1S") sequence — independent of the DFD color model, which this
statement does not constrain.  `basisAttempt _ isK` consults
`sizeKTX2/transcodeKTX2` exactly when `isK` holds and
`sizeBasis/transcodeBasis` otherwise. -/
theorem c5_path_selected_by_backend :
    ∀ (env : Env) (buf : List Nat) (t0 : ParsedTexture) (p : List Nat),
      parseStructure buf = .ok t0 →
      t0.header.supercompressionScheme = 1 →
      env.basisLoads = true →
      env.basis.startTranscoding = true →
      (if env.basis.hasKTX2File && env.basis.ktx2CtorOk then 1 else env.basis.numImages) ≠ 0 →
      0 < min t0.levels.length
            (lzLevelCount env.basis (env.basis.hasKTX2File && env.basis.ktx2CtorOk)) →
      basisAttempt env.basis (env.basis.hasKTX2File && env.basis.ktx2CtorOk) 0 = some p →
      ∃ t, (parseKTX2 env buf).result = .ok t ∧
        (t.levels[0]?).map Level.decompressedData = (t0.levels[0]?).map (fun _ => some p) := by
  intro env buf t0 p hps hs hbl hstart himg hsafe hatt
  have hdlz := decodeBasisLZ_spec env.basis t0.levels hstart himg
  have hparse := parseKTX2_lz env buf t0 hps hs hbl
  rw [hdlz] at hparse
  have hne : t0.levels ≠ [] := by
    intro h0
    rw [h0] at hsafe
    simp at hsafe
  obtain ⟨l, rest, hlv⟩ : ∃ l rest, t0.levels = l :: rest := by
    cases h : t0.levels with
    | nil => exact absurd h hne
    | cons a b => exact ⟨a, b, rfl⟩
  set isK := env.basis.hasKTX2File && env.basis.ktx2CtorOk with hisK
  set safe := min t0.levels.length (lzLevelCount env.basis isK) with hsafedef
  refine ⟨_, by rw [hparse], ?_⟩
  show ((basisLZLoop env.basis isK safe 0 t0.levels)[0]?).map Level.decompressedData
    = (t0.levels[0]?).map (fun _ => some p)
  rw [hlv]
  rw [basisLZLoop_step_some env.basis isK safe l rest 0 p hatt hsafe]
  simp [decorate]

/-- C5 amended witness: against `dualBackend` (working `KTX2File`), the
level-0 payload of `bufLZdfd160` is the `KTX2File`-path fill. -/
theorem c5_path_selected_by_backend_witness :
    ∃ t, (parseKTX2 dualEnv bufLZdfd160).result = .ok t ∧
      (t.levels[0]?).map Level.decompressedData =
        (((match parseStructure bufLZdfd160 with
           | .ok t0 => t0
           | .error _ => emptyTexture).levels[0]?).map (fun _ => some [1, 1, 1, 1])) :=
  c5_path_selected_by_backend dualEnv bufLZdfd160
    (match parseStructure bufLZdfd160 with
     | .ok t0 => t0
     | .error _ => emptyTexture)
    [1, 1, 1, 1] rfl rfl rfl rfl (by decide) (by decide) rfl

theorem padRowsDst_length (src : List Nat) (rowStride aligned : Nat)
    (hle : rowStride ≤ aligned) :
    ∀ (rows y : Nat), (padRowsDst src rowStride aligned y rows).length = aligned * rows := by
  intro rows
  induction rows with
  | zero => intro y; rfl
  | succ n ih =>
    intro y
    simp only [padRowsDst, List.length_append, List.length_replicate, ih]
    have hchunk : ((src.drop (y * rowStride)).take rowStride).length ≤ rowStride := by
      simp [List.length_take]
    rw [Nat.mul_succ]
    omega

theorem padRowsDst_row (src : List Nat) (rowStride aligned : Nat)
    (hle : rowStride ≤ aligned) :
    ∀ (rows y j : Nat), j < rows → (y + j + 1) * rowStride ≤ src.length →
      ((padRowsDst src rowStride aligned y rows).drop (j * aligned)).take rowStride
        = (src.drop ((y + j) * rowStride)).take rowStride := by
  intro rows
  induction rows with
  | zero => intro y j hj _; exact absurd hj (by omega)
  | succ n ih =>
    intro y j hj hsrc
    have hchunklen : ((src.drop (y * rowStride)).take rowStride).length +
        (aligned - ((src.drop (y * rowStride)).take rowStride).length) = aligned := by
      have : ((src.drop (y * rowStride)).take rowStride).length ≤ rowStride := by
        simp [List.length_take]
      omega
    cases j with
    | zero =>
      simp only [padRowsDst, Nat.zero_mul, List.drop_zero, List.append_assoc]
      have hfull : ((src.drop (y * rowStride)).take rowStride).length = rowStride := by
        simp only [List.length_take, List.length_drop]
        have hexp : (y + 0 + 1) * rowStride = y * rowStride + rowStride := by ring
        rw [hexp] at hsrc
        omega
      rw [List.take_left' hfull]
      simp
    | succ k =>
      simp only [padRowsDst, List.append_assoc]
      have hblock : (((src.drop (y * rowStride)).take rowStride) ++
          List.replicate (aligned - ((src.drop (y * rowStride)).take rowStride).length) 0).length
          = aligned := by
        simp only [List.length_append, List.length_replicate]
        exact hchunklen
      rw [← List.append_assoc]
      have hsplit : (k + 1) * aligned =
          (((src.drop (y * rowStride)).take rowStride) ++
            List.replicate (aligned - ((src.drop (y * rowStride)).take rowStride).length) 0).length
          + k * aligned := by
        rw [hblock]; ring
      rw [hsplit, List.drop_append]
      have harith : y + (k + 1) = y + 1 + k := by omega
      rw [harith] at hsrc ⊢
      exact ih (y + 1) k (by omega) hsrc

/-- C9: `padRows` returns row pitch `width*bytesPerPixel` rounded up to
the nearest multiple of 256; when the unpadded stride is already a
multiple of 256 (including zero) the input buffer is returned unchanged;
otherwise the output is `alignedStride * height` bytes with each source
row copied at its padded offset `y * alignedStride`. -/
theorem c9_padRows :
    ∀ (src : List Nat) (width height bytesPerPixel : Nat),
      (padRows src width height bytesPerPixel).2 =
        ((width * bytesPerPixel + 255) / 256) * 256 ∧
      (256 ∣ width * bytesPerPixel → (padRows src width height bytesPerPixel).1 = src) ∧
      (¬ 256 ∣ width * bytesPerPixel →
        (padRows src width height bytesPerPixel).1.length =
          ((width * bytesPerPixel + 255) / 256) * 256 * height ∧
        (src.length = width * bytesPerPixel * height →
          ∀ (y : Nat), y < height →
            (((padRows src width height bytesPerPixel).1.drop
                (y * (((width * bytesPerPixel + 255) / 256) * 256))).take (width * bytesPerPixel))
              = (src.drop (y * (width * bytesPerPixel))).take (width * bytesPerPixel))) := by
  intro src width height bytesPerPixel
  have hle : width * bytesPerPixel ≤ ((width * bytesPerPixel + 255) / 256) * 256 := by omega
  have hdvd : ((width * bytesPerPixel + 255) / 256) * 256 = width * bytesPerPixel ↔
      256 ∣ width * bytesPerPixel := by
    constructor
    · intro h; exact ⟨(width * bytesPerPixel + 255) / 256, by omega⟩
    · intro ⟨c, hc⟩; omega
  refine ⟨?_, ?_, ?_⟩
  · unfold padRows
    split
    · rename_i h; rw [h]
    · rfl
  · intro hd
    unfold padRows
    rw [if_pos (hdvd.mpr hd)]
  · intro hnd
    have hne : ¬ ((width * bytesPerPixel + 255) / 256) * 256 = width * bytesPerPixel := by
      intro h; exact hnd (hdvd.mp h)
    constructor
    · unfold padRows
      rw [if_neg hne]
      rw [padRowsDst_length src (width * bytesPerPixel)
        (((width * bytesPerPixel + 255) / 256) * 256) hle height 0]
    · intro hlen y hy
      unfold padRows
      rw [if_neg hne]
      have := padRowsDst_row src (width * bytesPerPixel)
        (((width * bytesPerPixel + 255) / 256) * 256) hle height 0 y hy
        (by rw [hlen]; have h1 : 0 + y + 1 ≤ height := by omega
            calc (0 + y + 1) * (width * bytesPerPixel)
                ≤ height * (width * bytesPerPixel) := Nat.mul_le_mul_right _ h1
              _ = width * bytesPerPixel * height := by ring)
      simpa using this

/-- C9 witness: width 3, height 2, 4 bytes/pixel ⇒ aligned row pitch 256,
output 512 bytes, original 12 bytes of each row at offsets 0 and 256. -/
theorem c9_padRows_witness :
    (padRows (List.range 24) 3 2 4).2 = 256 ∧
    (padRows (List.range 24) 3 2 4).1.length = 512 ∧
    ((padRows (List.range 24) 3 2 4).1.drop 0).take 12 = (List.range 24).take 12 ∧
    ((padRows (List.range 24) 3 2 4).1.drop 256).take 12 = ((List.range 24).drop 12).take 12 := by
  obtain ⟨h1, _, h3⟩ := c9_padRows (List.range 24) 3 2 4
  obtain ⟨h4, h5⟩ := h3 (by decide)
  refine ⟨h1, h4, ?_, ?_⟩
  · have := h5 (by decide) 0 (by decide)
    simpa using this
  · have := h5 (by decide) 1 (by decide)
    simpa using this

theorem float32ToFloat16_normal (s E M : Nat) (hs : s < 2) (hE1 : 113 ≤ E) (hE2 : E ≤ 142)
    (hM : M < 2 ^ 23) :
    float32ToFloat16 (s * 2 ^ 31 + E * 2 ^ 23 + M)
      = s * 2 ^ 15 + (E - 112) * 2 ^ 10 + M / 2 ^ 13 := by
  have h1 : (s * 2 ^ 31 + E * 2 ^ 23 + M) / 2 ^ 31 % 2 = s := by omega
  have h2 : (s * 2 ^ 31 + E * 2 ^ 23 + M) / 2 ^ 23 % 256 = E := by omega
  have h3 : (s * 2 ^ 31 + E * 2 ^ 23 + M) / 2 ^ 13 % 1024 = M / 2 ^ 13 := by omega
  simp only [float32ToFloat16, h1, h2, h3]
  rw [if_neg (by omega : ¬ ((E : Int) - 112 ≤ 0)),
    if_neg (by omega : ¬ (31 ≤ (E : Int) - 112))]
  have h4 : ((E : Int) - 112).toNat = E - 112 := by omega
  rw [h4]

theorem halfValQ_normal (s eh m : Nat) (hs : s < 2) (he1 : 1 ≤ eh) (he2 : eh ≤ 30)
    (hm : m < 2 ^ 10) :
    halfValQ (s * 2 ^ 15 + eh * 2 ^ 10 + m)
      = (if s = 1 then (-1 : ℚ) else 1) * ((1 + (m : ℚ) / 2 ^ 10) * (2 : ℚ) ^ ((eh : ℤ) - 15)) := by
  have h1 : (s * 2 ^ 15 + eh * 2 ^ 10 + m) / 2 ^ 15 % 2 = s := by omega
  have h2 : (s * 2 ^ 15 + eh * 2 ^ 10 + m) / 2 ^ 10 % 32 = eh := by omega
  have h3 : (s * 2 ^ 15 + eh * 2 ^ 10 + m) % 2 ^ 10 = m := by omega
  simp only [halfValQ, h1, h2, h3]
  rw [if_neg (by omega : ¬ eh = 0)]

theorem float32ValQ_normal (s E M : Nat) (hs : s < 2) (hE1 : 1 ≤ E) (hE2 : E ≤ 254)
    (hM : M < 2 ^ 23) :
    float32ValQ (s * 2 ^ 31 + E * 2 ^ 23 + M)
      = (if s = 1 then (-1 : ℚ) else 1) * ((1 + (M : ℚ) / 2 ^ 23) * (2 : ℚ) ^ ((E : ℤ) - 127)) := by
  have h1 : (s * 2 ^ 31 + E * 2 ^ 23 + M) / 2 ^ 31 % 2 = s := by omega
  have h2 : (s * 2 ^ 31 + E * 2 ^ 23 + M) / 2 ^ 23 % 256 = E := by omega
  have h3 : (s * 2 ^ 31 + E * 2 ^ 23 + M) % 2 ^ 23 = M := by omega
  simp only [float32ValQ, h1, h2, h3]
  rw [if_neg (by omega : ¬ E = 0)]

theorem trunc_bracket (E M : Nat) (hM : M < 2 ^ 23) :
    (1 + ((M / 2 ^ 13 : Nat) : ℚ) / 2 ^ 10) * (2 : ℚ) ^ ((E : ℤ) - 127)
      ≤ (1 + (M : ℚ) / 2 ^ 23) * (2 : ℚ) ^ ((E : ℤ) - 127) ∧
    (1 + (M : ℚ) / 2 ^ 23) * (2 : ℚ) ^ ((E : ℤ) - 127)
      < (1 + ((M / 2 ^ 13 : Nat) : ℚ) / 2 ^ 10) * (2 : ℚ) ^ ((E : ℤ) - 127)
        + (2 : ℚ) ^ ((E : ℤ) - 137) := by
  have hq : (0 : ℚ) < (2 : ℚ) ^ ((E : ℤ) - 127) := zpow_pos (by norm_num) _
  have hsplit : (2 : ℚ) ^ ((E : ℤ) - 137)
      = (2 : ℚ) ^ ((E : ℤ) - 127) * (2 : ℚ) ^ (-10 : ℤ) := by
    rw [← zpow_add₀ (by norm_num : (2 : ℚ) ≠ 0)]
    congr 1
    ring
  have hneg : (2 : ℚ) ^ (-10 : ℤ) = 1 / 2 ^ 10 := by norm_num
  have ha : ((M / 2 ^ 13 : Nat) : ℚ) * 2 ^ 13 ≤ (M : ℚ) := by
    exact_mod_cast Nat.div_mul_le_self M (2 ^ 13)
  have hb : (M : ℚ) < (((M / 2 ^ 13 : Nat) : ℚ) + 1) * 2 ^ 13 := by
    have hnat : M < (M / 2 ^ 13 + 1) * 2 ^ 13 := by omega
    exact_mod_cast hnat
  constructor
  · apply mul_le_mul_of_nonneg_right _ (le_of_lt hq)
    have hdiv : ((M / 2 ^ 13 : Nat) : ℚ) / 2 ^ 10 ≤ (M : ℚ) / 2 ^ 23 := by
      rw [div_le_div_iff₀ (by norm_num) (by norm_num)]
      nlinarith [ha]
    linarith
  · rw [hsplit, hneg]
    have hdiv : (M : ℚ) / 2 ^ 23 < ((M / 2 ^ 13 : Nat) : ℚ) / 2 ^ 10 + 1 / 2 ^ 10 := by
      rw [div_add_div_same, div_lt_div_iff₀ (by norm_num) (by norm_num)]
      nlinarith [hb]
    nlinarith [mul_lt_mul_of_pos_right hdiv hq]

/-- C8 counterexample: the float32 pattern `0x3F801800`
(value `1 + 3/4096 = 1.000732…`) converts to `0x3C00` (value 1), but the
half pattern `0x3C01` (value `1 + 1/1024`) is strictly nearer — the
conversion truncates the mantissa instead of rounding to nearest. -/
theorem c8_counterexample :
    float32ToFloat16 0x3F801800 = 0x3C00 ∧
    float32ValQ 0x3F801800 = 1 + 3 / 4096 ∧
    halfValQ 0x3C00 = 1 ∧
    halfValQ 0x3C01 = 1 + 4 / 4096 ∧
    |(1 + 3 / 4096 : ℚ) - (1 + 4 / 4096)| < |(1 + 3 / 4096 : ℚ) - 1| := by
  refine ⟨rfl, ?_, ?_, ?_, ?_⟩
  · norm_num [float32ValQ]
  · norm_num [halfValQ]
  · norm_num [halfValQ]
  · rw [abs_of_nonpos (by norm_num), abs_of_nonneg (by norm_num)]
    norm_num

/-- C8 amended: `float32ToFloat16` is the round-toward-zero (mantissa
truncating) 32→16-bit conversion, not round-to-nearest.  First conjunct:
for every normal-range input (`113 ≤ E ≤ 142`, so the result is a normal
half) the output value lies within one half-ULP below the input magnitude
— for positive inputs `half ≤ value < half + 2^(E-137)`, mirrored for
negative inputs.  Second conjunct: exponent overflow (`E ≥ 143`, which
includes infinities and NaNs) clamps to the infinity-class pattern
`sign * 2^15 + 31 * 2^10`.  Third conjunct: deep underflow (`E ≤ 101`)
flushes to the signed zero pattern `sign * 2^15`. -/
theorem c8_truncating_conversion :
    (∀ (s E M : Nat), s < 2 → 113 ≤ E → E ≤ 142 → M < 2 ^ 23 →
      (s = 0 →
        halfValQ (float32ToFloat16 (s * 2 ^ 31 + E * 2 ^ 23 + M))
            ≤ float32ValQ (s * 2 ^ 31 + E * 2 ^ 23 + M) ∧
        float32ValQ (s * 2 ^ 31 + E * 2 ^ 23 + M)
            < halfValQ (float32ToFloat16 (s * 2 ^ 31 + E * 2 ^ 23 + M))
              + (2 : ℚ) ^ ((E : ℤ) - 137)) ∧
      (s = 1 →
        float32ValQ (s * 2 ^ 31 + E * 2 ^ 23 + M)
            ≤ halfValQ (float32ToFloat16 (s * 2 ^ 31 + E * 2 ^ 23 + M)) ∧
        halfValQ (float32ToFloat16 (s * 2 ^ 31 + E * 2 ^ 23 + M))
            < float32ValQ (s * 2 ^ 31 + E * 2 ^ 23 + M) + (2 : ℚ) ^ ((E : ℤ) - 137))) ∧
    (∀ (s E M : Nat), s < 2 → 143 ≤ E → E ≤ 255 → M < 2 ^ 23 →
      float32ToFloat16 (s * 2 ^ 31 + E * 2 ^ 23 + M) = s * 2 ^ 15 + 31 * 2 ^ 10) ∧
    (∀ (s E M : Nat), s < 2 → E ≤ 101 → M < 2 ^ 23 →
      float32ToFloat16 (s * 2 ^ 31 + E * 2 ^ 23 + M) = s * 2 ^ 15) := by
  refine ⟨?_, ?_, ?_⟩
  · intro s E M hs hE1 hE2 hM
    rw [float32ToFloat16_normal s E M hs hE1 hE2 hM]
    have hm10 : M / 2 ^ 13 < 2 ^ 10 := by omega
    rw [halfValQ_normal s (E - 112) (M / 2 ^ 13) hs (by omega) (by omega) hm10]
    rw [float32ValQ_normal s E M hs (by omega) (by omega) hM]
    have hcast : ((E - 112 : Nat) : ℤ) - 15 = (E : ℤ) - 127 := by omega
    rw [hcast]
    obtain ⟨hbr1, hbr2⟩ := trunc_bracket E M hM
    constructor
    · intro hs0
      subst hs0
      have hif : (if (0 : Nat) = 1 then (-1 : ℚ) else 1) = 1 := by norm_num
      rw [hif]
      constructor
      · linarith
      · linarith
    · intro hs1
      subst hs1
      have hif : (if (1 : Nat) = 1 then (-1 : ℚ) else 1) = -1 := by norm_num
      rw [hif]
      constructor
      · linarith
      · linarith
  · intro s E M hs hE1 hE2 hM
    have h1 : (s * 2 ^ 31 + E * 2 ^ 23 + M) / 2 ^ 31 % 2 = s := by omega
    have h2 : (s * 2 ^ 31 + E * 2 ^ 23 + M) / 2 ^ 23 % 256 = E := by omega
    simp only [float32ToFloat16, h1, h2]
    rw [if_neg (by omega : ¬ ((E : Int) - 112 ≤ 0)),
      if_pos (by omega : (31 : Int) ≤ (E : Int) - 112)]
  · intro s E M hs hE1 hM
    have h1 : (s * 2 ^ 31 + E * 2 ^ 23 + M) / 2 ^ 31 % 2 = s := by omega
    have h2 : (s * 2 ^ 31 + E * 2 ^ 23 + M) / 2 ^ 23 % 256 = E := by omega
    simp only [float32ToFloat16, h1, h2]
    rw [if_pos (by omega : (E : Int) - 112 ≤ 0),
      if_pos (by omega : (E : Int) - 112 < -10)]

/-- C8 amended witness: the three regimes at concrete bit patterns —
`0x3F801800` (normal, truncates to `0x3C00`), `0x7F800001` (NaN pattern,
clamps to `0x7C00`), `0x38000000` (`2^-15`, below the range cutoff used by
the code, flushes to `+0`). -/
theorem c8_truncating_conversion_witness :
    (halfValQ (float32ToFloat16 (0 * 2 ^ 31 + 127 * 2 ^ 23 + 6144))
        ≤ float32ValQ (0 * 2 ^ 31 + 127 * 2 ^ 23 + 6144) ∧
      float32ValQ (0 * 2 ^ 31 + 127 * 2 ^ 23 + 6144)
        < halfValQ (float32ToFloat16 (0 * 2 ^ 31 + 127 * 2 ^ 23 + 6144))
          + (2 : ℚ) ^ ((127 : ℤ) - 137)) ∧
    float32ToFloat16 (0 * 2 ^ 31 + 255 * 2 ^ 23 + 1) = 0 * 2 ^ 15 + 31 * 2 ^ 10 ∧
    float32ToFloat16 (1 * 2 ^ 31 + 101 * 2 ^ 23 + 0) = 1 * 2 ^ 15 :=
  ⟨(c8_truncating_conversion.1 0 127 6144 (by decide) (by decide) (by decide) (by decide)).1 rfl,
   c8_truncating_conversion.2.1 0 255 1 (by decide) (by decide) (by decide) (by decide),
   c8_truncating_conversion.2.2 1 101 0 (by decide) (by decide) (by decide)⟩

end KTX2
